import Mathlib

/-!
Verification development for the HTMLNodeMapper analysis engine
(src/Build/src/htmlParser.js).

The engine parses an HTML document (via parse5), walks the resulting DOM
tree, analyses inline scripts (via acorn) and stylesheets (via the css
package), and assembles a node/edge graph.  Everything below is a shallow
embedding of the code in htmlParser.js: JavaScript arrays become lists,
JS Map objects become association lists with insertion-order semantics,
machine integers become Nat, and the external text parsers (parse5, acorn,
css) — which the code treats as black boxes — become oracle parameters
handing back the syntax trees they would produce.
-/

namespace HTMLNodeMapper

/-! ### Character/string helpers

All string manipulation is done on character lists so that every
definition is executable by kernel reduction.  Each helper models the
exact JavaScript string operation used by the source. -/

/-- Models JavaScript `s.substring(a, b)`: clamps both indices to the
string length, swaps them when out of order, and returns the slice. -/
def jsSubstring (s : String) (a b : Nat) : String :=
  let len := s.data.length
  let x := min a len
  let y := min b len
  let lo := min x y
  let hi := max x y
  ((s.data.drop lo).take (hi - lo)).asString

/-- Models the JavaScript idiom `v || d` on a possibly-absent string:
`undefined`/`null` and the empty string are falsy and fall back to `d`. -/
def jsOrElseStr (o : Option String) (d : String) : String :=
  match o with
  | some s => if s = "" then d else s
  | none => d

/-- Whitespace test for the `/\s+/` splits in the source. -/
def isWs (c : Char) : Bool := c = ' ' || c = '\t' || c = '\n' || c = '\r'

/-- Splits a character list into maximal non-whitespace runs
(accumulator holds the current run, reversed). -/
def wsTokensAux : List Char → List Char → List String
  | [], acc => if acc = [] then [] else [acc.reverse.asString]
  | c :: rest, acc =>
    if isWs c then
      if acc = [] then wsTokensAux rest []
      else acc.reverse.asString :: wsTokensAux rest []
    else wsTokensAux rest (c :: acc)

/-- The maximal non-whitespace runs of a string.  `s.split(/\s+/)` in
JavaScript yields these runs plus possibly one leading empty string;
every use in the source immediately discards empty strings (`if (cls)`,
`.filter(Boolean)`), so the runs are the faithful model of what each
use site actually processes. -/
def wsSplit (s : String) : List String := wsTokensAux s.data []

/-- Models JavaScript `s.trim()` (restricted to ASCII whitespace). -/
def jsTrim (s : String) : String :=
  (((s.data.dropWhile isWs).reverse.dropWhile isWs).reverse).asString

/-- Models `selector.replace(/:.+$/, "")`: cut the text from the first
`:` that is followed by at least one character; a trailing lone `:` has
nothing after it, so the regex does not match there. -/
def stripPseudoAux : List Char → List Char
  | [] => []
  | c :: rest =>
    if c = ':' && rest ≠ [] then []
    else c :: stripPseudoAux rest

def stripPseudo (s : String) : String := (stripPseudoAux s.data).asString

/-- One character of the regex class `[\w-]`. -/
def isWordHyphen (c : Char) : Bool :=
  (('a' ≤ c && c ≤ 'z') || ('A' ≤ c && c ≤ 'Z') || ('0' ≤ c && c ≤ '9')
    || c = '_' || c = '-')

/-- ASCII letter, the regex class `[a-zA-Z]`. -/
def isAsciiLetter (c : Char) : Bool :=
  ('a' ≤ c && c ≤ 'z') || ('A' ≤ c && c ≤ 'Z')

/-- Models `part.match(/^([a-zA-Z][\w-]*)/)`: the leading tag-name
capture, if the part starts with a letter. -/
def tagMatchOf (part : String) : Option String :=
  match part.data with
  | [] => none
  | c :: rest =>
    if isAsciiLetter c then some ((c :: rest.takeWhile isWordHyphen).asString)
    else none

/-- Single-pass scanner behind `fragScan`.  The Bool says whether we are
inside a capture (just saw the marker); the accumulator holds the
reversed `[\w-]` run captured so far.  A capture that ends empty emits
nothing (the regex needs at least one `[\w-]` character), and the
character that ended a capture is reconsidered as a possible marker. -/
def fragScanAux (mark : Char) : List Char → Bool → List Char → List String
  | [], capturing, rev =>
    if capturing && rev ≠ [] then [rev.reverse.asString] else []
  | c :: rest, capturing, rev =>
    if capturing then
      if isWordHyphen c then fragScanAux mark rest true (c :: rev)
      else
        let tail := if c = mark then fragScanAux mark rest true []
          else fragScanAux mark rest false []
        if rev ≠ [] then rev.reverse.asString :: tail else tail
    else
      if c = mark then fragScanAux mark rest true []
      else fragScanAux mark rest false []

/-- Models a global scan for `mark([\w-]+)`: every occurrence of the
marker character followed by at least one `[\w-]` character yields the
maximal `[\w-]` run after it, and scanning resumes past that run (the
first element models `.match`, the whole list models `.matchAll`). -/
def fragScan (mark : Char) (l : List Char) : List String :=
  fragScanAux mark l false []

/-! ### Data model

Record shapes follow the object literals in htmlParser.js.  Fields a
JavaScript object may simply not have (`label`, `visible` on structural
links; location info on DOM nodes) are `Option`s, with `none` meaning
the property is absent/undefined. -/

/-- A node record, as pushed by createNode: `{ id, name, type, content }`. -/
structure GNode where
  id : Nat
  name : String
  type : String
  content : Option String
deriving DecidableEq, Repr

/-- An edge record.  createNode pushes `{ source, target, type }` (no
label, no visible field); createLink pushes `{ source, target, type,
visible }` and adds `label` only when truthy. -/
structure Link where
  source : Nat
  target : Nat
  type : String
  label : Option String
  visible : Option Bool
deriving DecidableEq, Repr

/-- The value stored in nodeMap: `{ name, type, content }`. -/
structure NodeInfo where
  name : String
  type : String
  content : Option String
deriving DecidableEq, Repr

/-- A parsed-CSS rule as the css package returns it:
`{ type, selectors }`. -/
structure CSSRule where
  type : String
  selectors : Option (List String)
deriving DecidableEq, Repr

/-- The `stylesheet` member of a css-package parse result:
`{ rules }` (the source guards with `css.stylesheet.rules || []`). -/
structure CSSSheetBody where
  rules : Option (List CSSRule)
deriving DecidableEq, Repr

/-- A css-package parse result: `{ stylesheet }`. -/
structure CSSParsed where
  stylesheet : Option CSSSheetBody
deriving DecidableEq, Repr

/-- A styleMap entry value: `{ id, css }` with `css: null` for
external stylesheets (their text is never fetched in this code). -/
structure StyleInfo where
  id : Nat
  css : Option CSSParsed
deriving DecidableEq, Repr

/-- A parse5 attribute record `{ name, value }`. -/
structure DomAttr where
  name : String
  value : String
deriving DecidableEq, Repr

/-- A parse5 source span (`startOffset`/`endOffset`). -/
structure Span where
  startOffset : Nat
  endOffset : Nat
deriving DecidableEq, Repr

/-- A parse5 tree node.  `nodeName` is always present (`"#document"`,
`"#text"`, `"#comment"`, or the tag name); `tagName` only on element
nodes; `value` only on text/comment nodes.  Absent `attrs`/`childNodes`
arrays are modelled as `[]` — the source only ever iterates them or
reads `[0]`, so `undefined` and `[]` are indistinguishable to it.
parse5 (invoked with the v4+ option name `sourceCodeLocationInfo`)
attaches spans as the `sourceCodeLocation` property; the code instead
reads the legacy v2-era property `__location`, which parse5 output does
not carry — it is kept as a field here (always `none` on parse5 output)
so that the read in traverseDOM can be embedded verbatim. -/
inductive DomNode where
  | mk (nodeName : String) (tagName : Option String) (attrs : List DomAttr)
       (childNodes : List DomNode) (value : Option String)
       (sourceCodeLocation : Option Span) (__location : Option Span)
deriving Repr

def DomNode.nodeName : DomNode → String
  | .mk n _ _ _ _ _ _ => n

def DomNode.tagName : DomNode → Option String
  | .mk _ t _ _ _ _ _ => t

def DomNode.attrs : DomNode → List DomAttr
  | .mk _ _ a _ _ _ _ => a

def DomNode.childNodes : DomNode → List DomNode
  | .mk _ _ _ c _ _ _ => c

def DomNode.value : DomNode → Option String
  | .mk _ _ _ _ v _ _ => v

def DomNode.sourceCodeLocation : DomNode → Option Span
  | .mk _ _ _ _ _ s _ => s

def DomNode.__location : DomNode → Option Span
  | .mk _ _ _ _ _ _ l => l

/-- An acorn AST node.  Constructors cover the node kinds the walker's
switch dispatches on, plus the kinds reachable in the concrete scripts
analysed below; `start`/`endPos` model acorn's `start`/`end` offsets
(kept optional because the source null-checks them). -/
inductive JSNode where
  | program (start endPos : Option Nat) (body : List JSNode)
  | functionDeclaration (start endPos : Option Nat) (id : Option JSNode)
      (params : List JSNode) (body : Option JSNode)
  | identifier (start endPos : Option Nat) (name : String)
  | blockStatement (start endPos : Option Nat) (body : List JSNode)
  | returnStatement (start endPos : Option Nat) (argument : Option JSNode)
  | variableDeclaration (start endPos : Option Nat) (declarations : List JSNode)
  | variableDeclarator (start endPos : Option Nat) (id : JSNode) (init : Option JSNode)
  | expressionStatement (start endPos : Option Nat) (expression : JSNode)
  | assignmentExpression (start endPos : Option Nat) (left right : JSNode)
  | ifStatement (start endPos : Option Nat) (test consequent : JSNode)
      (alternate : Option JSNode)
  | literal (start endPos : Option Nat) (raw : String)
deriving Repr

/-- The node's `start` offset. -/
def JSNode.startOf : JSNode → Option Nat
  | .program s _ _ => s
  | .functionDeclaration s _ _ _ _ => s
  | .identifier s _ _ => s
  | .blockStatement s _ _ => s
  | .returnStatement s _ _ => s
  | .variableDeclaration s _ _ => s
  | .variableDeclarator s _ _ _ => s
  | .expressionStatement s _ _ => s
  | .assignmentExpression s _ _ _ => s
  | .ifStatement s _ _ _ _ => s
  | .literal s _ _ => s

/-- The node's `end` offset. -/
def JSNode.endOf : JSNode → Option Nat
  | .program _ e _ => e
  | .functionDeclaration _ e _ _ _ => e
  | .identifier _ e _ => e
  | .blockStatement _ e _ => e
  | .returnStatement _ e _ => e
  | .variableDeclaration _ e _ => e
  | .variableDeclarator _ e _ _ => e
  | .expressionStatement _ e _ => e
  | .assignmentExpression _ e _ _ => e
  | .ifStatement _ e _ _ _ => e
  | .literal _ e _ => e

/-- Models `n?.name`: the `name` property, present only on Identifier. -/
def jsName : Option JSNode → Option String
  | some (.identifier _ _ nm) => some nm
  | _ => none

/-! ### JS Map emulation

JavaScript `Map.set` keeps the original insertion position of an
existing key and appends new keys; iteration is in insertion order. -/

def mapSet {K V : Type} [DecidableEq K] : List (K × V) → K → V → List (K × V)
  | [], k, v => [(k, v)]
  | (k', v') :: rest, k, v =>
    if k' = k then (k, v) :: rest else (k', v') :: mapSet rest k v

def lookupKey {K V : Type} [DecidableEq K] : List (K × V) → K → Option V
  | [], _ => none
  | (k', v') :: rest, k => if k' = k then some v' else lookupKey rest k

/-! ### The centralized state and the Graph Store primitives -/

/-- The `state` object of parseHTML. -/
structure ParserState where
  nodes : List GNode
  links : List Link
  nodeId : Nat
  nodeMap : List (Nat × NodeInfo)
  styleMap : List (String × StyleInfo)
  scriptContentMap : List (Nat × String)
  elementMap : List (String × Nat)
deriving DecidableEq, Repr

def initState : ParserState :=
  { nodes := [], links := [], nodeId := 0, nodeMap := [], styleMap := [],
    scriptContentMap := [], elementMap := [] }

/-- The node creation factory `createNode(name, type, parentId, content)`:
allocates the next id, pushes the node record and the nodeMap entry, and
— when a parent is given — pushes a `structural` edge object
`{ source: parentId, target: id, type: "structural" }` (which has no
`label` and no `visible` property).  (The state is destructured and
rebuilt field by field, which is definitionally the same as a record
update but keeps evaluation linear.) -/
def createNode (st : ParserState) (name type : String)
    (parentId : Option Nat := none) (content : Option String := none) :
    Nat × ParserState :=
  match st with
  | .mk nodes links nodeId nodeMap styleMap scriptContentMap elementMap =>
    let newLinks := match parentId with
      | some p => links ++
        [{ source := p, target := nodeId, type := "structural", label := none, visible := none }]
      | none => links
    (nodeId, .mk
      (nodes ++ [{ id := nodeId, name := name, type := type, content := content }])
      newLinks
      (nodeId + 1)
      (mapSet nodeMap nodeId { name := name, type := type, content := content })
      styleMap scriptContentMap elementMap)

/-- The truthiness test `if (label) link.label = label`: a null or
empty label leaves the property absent. -/
def normLabel (label : Option String) : Option String :=
  match label with
  | some l => if l = "" then none else some l
  | none => none

/-- The link creation helper `createLink(source, target, type, label,
visible = true)`: pushes `{ source, target, type, visible }` and adds
`label` only when truthy (non-null, nonempty). -/
def createLink (st : ParserState) (source target : Nat) (type : String)
    (label : Option String := none) (visible : Bool := true) : ParserState :=
  let lbl := normLabel label
  match st with
  | .mk nodes links nodeId nodeMap styleMap scriptContentMap elementMap =>
    .mk nodes
      (links ++ [{ source := source, target := target, type := type, label := lbl, visible := some visible }])
      nodeId nodeMap styleMap scriptContentMap elementMap

/-- `state.elementMap.set(key, id)`. -/
def setElementMap (st : ParserState) (key : String) (v : Nat) : ParserState :=
  match st with
  | .mk nodes links nodeId nodeMap styleMap scriptContentMap elementMap =>
    .mk nodes links nodeId nodeMap styleMap scriptContentMap (mapSet elementMap key v)

/-- `state.styleMap.set(key, info)`. -/
def setStyleMap (st : ParserState) (key : String) (v : StyleInfo) : ParserState :=
  match st with
  | .mk nodes links nodeId nodeMap styleMap scriptContentMap elementMap =>
    .mk nodes links nodeId nodeMap (mapSet styleMap key v) scriptContentMap elementMap

/-- `state.scriptContentMap.set(id, text)`. -/
def setScriptContentMap (st : ParserState) (k : Nat) (v : String) : ParserState :=
  match st with
  | .mk nodes links nodeId nodeMap styleMap scriptContentMap elementMap =>
    .mk nodes links nodeId nodeMap styleMap (mapSet scriptContentMap k v) elementMap

/-! ### DOM traversal (the Markup Tree Walker) -/

/-- The skip test of traverseDOM:
`node.nodeName === "#text" || node.nodeName === "#comment"` (the
`!node` guard is vacuous here: parse5 child lists hold no nulls). -/
def domSkip (node : DomNode) : Bool :=
  node.nodeName == "#text" || node.nodeName == "#comment"

/-- The element content captured by traverseDOM: the source slice of
`node.__location`, or null when that legacy property is absent. -/
def domContent (html : String) (lloc : Option Span) : Option String :=
  match lloc with
  | some loc => some (jsSubstring html loc.startOffset loc.endOffset)
  | none => none

/-- Processes one attribute of the current element, as the `switch` in
traverseDOM does: `id` and `class` register selector-index entries,
`style` creates an `inline-style` child node; other attributes do
nothing.  The `class` value is split on `/\s+/` and empty tokens are
skipped (`if (cls)`). -/
def processAttr (currentId : Nat) (st : ParserState) (attr : DomAttr) : ParserState :=
  if attr.name = "id" then
    setElementMap st ("#" ++ attr.value) currentId
  else if attr.name = "class" then
    (wsSplit attr.value).foldl
      (fun s cls => setElementMap s ("." ++ cls) currentId) st
  else if attr.name = "style" then
    (createNode st "Inline Style" "inline-style" (some currentId) (some attr.value)).2
  else st

mutual

/-- The DOM traversal `traverseDOM(node, parentId)`: skips text and
comment nodes, creates an Element node whose content comes from the
(legacy) `__location` property, registers the element in elementMap,
processes attributes, and recurses into children with the new element
as parent. -/
def traverseDOM (html : String) (node : DomNode) (parentId : Option Nat)
    (st : ParserState) : ParserState :=
  match node with
  | .mk nodeName tagName attrs childNodes _ _ lloc =>
    if domSkip (.mk nodeName tagName attrs childNodes none none lloc) then st
    else
      let nm := jsOrElseStr tagName nodeName
      let content := domContent html lloc
      let pr := createNode st nm "element" parentId content
      let currentId := pr.1
      let st2 := setElementMap pr.2 nm currentId
      let st3 := attrs.foldl (processAttr currentId) st2
      traverseDOMList html childNodes (some currentId) st3

/-- `node.childNodes.forEach(child => traverseDOM(child, currentId))`. -/
def traverseDOMList (html : String) (cs : List DomNode) (parentId : Option Nat)
    (st : ParserState) : ParserState :=
  match cs with
  | [] => st
  | c :: rest => traverseDOMList html rest parentId (traverseDOM html c parentId st)

end

/-! ### Script analysis (the JavaScript AST walker)

walkJSNode first dispatches on `node.type` (the switch), then runs a
reflective loop `for (const key in node)` that recurses into every
object-valued property (flattening arrays, skipping nulls) with the
*unchanged* parentId.  The embedding specializes that reflective loop
per node kind, visiting exactly the object-valued properties that acorn
stores on that kind, in property insertion order. -/

/-- `getSourceText(start, end)` from walkJSNode. -/
def getSourceText (scriptContent : String) (a b : Option Nat) : String :=
  match a, b with
  | some x, some y => jsSubstring scriptContent x y
  | _, _ => "<unknown>"

/-- The switch case for one VariableDeclaration declarator: creates a
Variable node and an `output` edge.  acorn declarations are always
VariableDeclarator nodes; the source would throw on anything else
(`decl.id.start` on undefined), so other shapes are left untouched. -/
def processDeclarator (sc : String) (parentId : Nat) (st : ParserState)
    (decl : JSNode) : ParserState :=
  match decl with
  | .variableDeclarator _ _ did dinit =>
    let varName := jsOrElseStr (jsName (some did))
      (getSourceText sc did.startOf did.endOf)
    let value := match dinit with
      | some i => getSourceText sc i.startOf i.endOf
      | none => "<uninitialized>"
    let pr := createNode st ("Variable Change: " ++ varName) "variable"
      (some parentId) (some ("New Value: " ++ value))
    createLink pr.2 parentId pr.1 "output"
  | _ => st

/-- The switch case for one function parameter: creates an Input node
(child of the function) and an `input` edge param → function. -/
def processParam (sc : String) (funcId : Nat) (st : ParserState)
    (param : JSNode) : ParserState :=
  let paramName := jsOrElseStr (jsName (some param))
    (getSourceText sc param.startOf param.endOf)
  let pr := createNode st ("Input: " ++ paramName) "input" (some funcId)
  createLink pr.2 pr.1 funcId "input"

/-- The switch case for ReturnStatement: only a truthy `node.argument`
creates an Output node (labelled with the argument's source text) and
an `output` edge from the enclosing scope. -/
def returnCreate (sc : String) (argOpt : Option JSNode) (parentId : Nat)
    (st : ParserState) : ParserState :=
  match argOpt with
  | some arg =>
    let returnVal := getSourceText sc arg.startOf arg.endOf
    let pr := createNode st ("Return: " ++ returnVal) "output"
      (some parentId)
    createLink pr.2 parentId pr.1 "output"
  | none => st

/-- The switch case for ExpressionStatement: only an
AssignmentExpression creates a DomChange node and an `output` edge. -/
def exprCreate (sc : String) (expr : JSNode) (parentId : Nat)
    (st : ParserState) : ParserState :=
  match expr with
  | .assignmentExpression _ _ l r =>
    let left := getSourceText sc l.startOf l.endOf
    let right := getSourceText sc r.startOf r.endOf
    let pr := createNode st ("DOM Change: " ++ left) "dom-change"
      (some parentId) (some ("New Value: " ++ right))
    createLink pr.2 parentId pr.1 "output"
  | _ => st

/-- The Function-node creation of the FunctionDeclaration case:
`Function: <name or "anonymous">`, content the whole declaration's
source span. -/
def fdCreate (sc : String) (s e : Option Nat) (idOpt : Option JSNode)
    (parentId : Nat) (st : ParserState) : Nat × ParserState :=
  let funcName := jsOrElseStr (jsName idOpt) "anonymous"
  createNode st ("Function: " ++ funcName) "function" (some parentId)
    (some (getSourceText sc s e))

mutual

def walkJSNode (sc : String) (node : JSNode) (parentId : Nat)
    (st : ParserState) : ParserState :=
  match node with
  | .program _ _ body =>
    -- no switch case; reflective loop walks the body array
    walkJSList sc body parentId st
  | .functionDeclaration s e idOpt params bodyOpt =>
    -- switch case: Function node, Input nodes, walk body with funcId
    let pr := fdCreate sc s e idOpt parentId st
    let funcId := pr.1
    let st2 := params.foldl (processParam sc funcId) pr.2
    -- `if (node.body?.body) node.body.body.forEach(... funcId ...)`
    let st3 := walkFnBody sc bodyOpt funcId st2
    -- reflective loop: properties id, params, body — with parentId
    let st4 := walkJSOpt sc idOpt parentId st3
    let st5 := walkJSList sc params parentId st4
    walkJSOpt sc bodyOpt parentId st5
  | .identifier _ _ _ => st
  | .blockStatement _ _ body =>
    -- reflective loop: property body
    walkJSList sc body parentId st
  | .returnStatement _ _ argOpt =>
    -- switch case, then reflective loop over property argument
    walkJSOpt sc argOpt parentId (returnCreate sc argOpt parentId st)
  | .variableDeclaration _ _ decls =>
    -- switch case, then reflective loop over property declarations
    walkJSList sc decls parentId (decls.foldl (processDeclarator sc parentId) st)
  | .variableDeclarator _ _ did dinit =>
    -- reflective loop: properties id, init
    walkJSOpt sc dinit parentId (walkJSNode sc did parentId st)
  | .expressionStatement _ _ expr =>
    -- switch case, then reflective loop over property expression
    walkJSNode sc expr parentId (exprCreate sc expr parentId st)
  | .assignmentExpression _ _ l r =>
    -- reflective loop: properties left, right
    walkJSNode sc r parentId (walkJSNode sc l parentId st)
  | .ifStatement _ _ t cons alt =>
    -- reflective loop: properties test, consequent, alternate
    walkJSOpt sc alt parentId (walkJSNode sc cons parentId (walkJSNode sc t parentId st))
  | .literal _ _ _ => st

/-- Array-valued properties: `value.forEach(item => item && walkJSNode(item, parentId, ...))`. -/
def walkJSList (sc : String) (ns : List JSNode) (parentId : Nat)
    (st : ParserState) : ParserState :=
  match ns with
  | [] => st
  | n :: rest => walkJSList sc rest parentId (walkJSNode sc n parentId st)

/-- A nullable object-valued property: skipped when null. -/
def walkJSOpt (sc : String) (o : Option JSNode) (parentId : Nat)
    (st : ParserState) : ParserState :=
  match o with
  | some n => walkJSNode sc n parentId st
  | none => st

/-- `if (node.body?.body) node.body.body.forEach(child => walkJSNode(child, funcId, ...))`:
walks the statements of the function body (the `.body` array of a
BlockStatement — or of a Program, the only other kind carrying a `body`
array) under the function's scope. -/
def walkFnBody (sc : String) (o : Option JSNode) (funcId : Nat)
    (st : ParserState) : ParserState :=
  match o with
  | some (.blockStatement _ _ stmts) => walkJSList sc stmts funcId st
  | some (.program _ _ stmts) => walkJSList sc stmts funcId st
  | _ => st

end

/-- `parseScriptContent(scriptContent, scriptId)`: records the raw text
in scriptContentMap, then parses and walks the AST; a parse failure
(acorn throwing) is caught and only logged, leaving the state as it
was after the scriptContentMap write.  The acorn front-end is the
oracle `pJS`, returning `none` exactly when acorn would throw. -/
def parseScriptContent (pJS : String → Option JSNode) (scriptContent : String)
    (scriptId : Nat) (st : ParserState) : ParserState :=
  let st1 := setScriptContentMap st scriptId scriptContent
  match pJS scriptContent with
  | some ast => walkJSNode scriptContent ast scriptId st1
  | none => st1

/-- `node.childNodes?.[0]?.value`. -/
def firstChildValue (cs : List DomNode) : Option String :=
  match cs with
  | [] => none
  | c :: _ => c.value

/-! ### Script/style extraction -/

/-- The `script` branch of extractScriptsAndStyles: a Script node named
after the `src` attribute (or `inline-script`), and for an inline
script with truthy first-child text, the parse-and-walk of that text. -/
def extractScript (pJS : String → Option JSNode) (tagName : Option String)
    (attrs : List DomAttr) (childNodes : List DomNode) (parentId : Option Nat)
    (st : ParserState) : ParserState :=
  if tagName = some "script" then
    let srcAttr := attrs.find? (fun a => a.name = "src")
    let src := jsOrElseStr (srcAttr.map (fun a => a.value)) "inline-script"
    let pr := createNode st src "script" parentId
    if srcAttr = none then
      -- `if (!srcAttr && node.childNodes?.[0]?.value)`
      match firstChildValue childNodes with
      | some t => if t = "" then pr.2 else parseScriptContent pJS t pr.1 pr.2
      | none => pr.2
    else pr.2
  else st

/-- The `link` branch: a stylesheet `<link>` yields an ExternalStyle
node and a styleMap entry under its href with no parsed css. -/
def extractLinkTag (tagName : Option String) (attrs : List DomAttr)
    (parentId : Option Nat) (st : ParserState) : ParserState :=
  if tagName = some "link" then
    let isStylesheet := attrs.any (fun a => a.name = "rel" && a.value = "stylesheet")
    if isStylesheet then
      let href := jsOrElseStr
        ((attrs.find? (fun a => a.name = "href")).map (fun a => a.value))
        "external-style"
      let pr := createNode st href "external-style" parentId
      setStyleMap pr.2 href { id := pr.1, css := none }
    else st
  else st

/-- The `style` branch: an InlineStylesheet node, and on a successful
css parse a styleMap entry under the constant key `inline-stylesheet`. -/
def extractStyleTag (pCSS : String → Option CSSParsed) (tagName : Option String)
    (childNodes : List DomNode) (parentId : Option Nat) (st : ParserState) : ParserState :=
  if tagName = some "style" then
    let cssContent := jsOrElseStr (firstChildValue childNodes) ""
    let pr := createNode st "inline-stylesheet" "stylesheet"
      parentId (some cssContent)
    -- the css front-end is the oracle pCSS; on failure (css.parse
    -- throwing) the styleMap entry is not written
    match pCSS cssContent with
    | some parsed =>
      setStyleMap pr.2 "inline-stylesheet" { id := pr.1, css := some parsed }
    | none => pr.2
  else st

mutual

/-- `extractScriptsAndStyles(node, parentId)`: the three tag branches in
order on the shared state.  Note the recursion: the children are visited
with the *same* `parentId` the current node was visited with; the
pipeline invokes this pass with `parentId = null`, so every node this
pass creates has a null parent. -/
def extractScriptsAndStyles (pJS : String → Option JSNode)
    (pCSS : String → Option CSSParsed) (node : DomNode) (parentId : Option Nat)
    (st : ParserState) : ParserState :=
  match node with
  | .mk _ tagName attrs childNodes _ _ _ =>
    extractList pJS pCSS childNodes parentId
      (extractStyleTag pCSS tagName childNodes parentId
        (extractLinkTag tagName attrs parentId
          (extractScript pJS tagName attrs childNodes parentId st)))

/-- `node.childNodes.forEach(child => extractScriptsAndStyles(child, parentId))`. -/
def extractList (pJS : String → Option JSNode) (pCSS : String → Option CSSParsed)
    (cs : List DomNode) (parentId : Option Nat) (st : ParserState) : ParserState :=
  match cs with
  | [] => st
  | c :: rest =>
    extractList pJS pCSS rest parentId (extractScriptsAndStyles pJS pCSS c parentId st)

end

/-! ### Style resolution (selector matching) -/

/-- `matchSelectorPart(part)`: resolves one simple-selector part to a set
of candidate node ids via the element map — the leading tag-name capture,
the first `#id` fragment, and every `.class` fragment each contribute the
id currently registered under that key (a JS Set in insertion order). -/
def matchSelectorPart (st : ParserState) (part : String) : List Nat :=
  let add := fun (l : List Nat) (x : Nat) => if l.contains x then l else l ++ [x]
  let ids : List Nat := []
  let ids := match tagMatchOf part with
    | some t =>
      match lookupKey st.elementMap t with
      | some v => add ids v
      | none => ids
    | none => ids
  let ids := match (fragScan '#' part.data).head? with
    | some frag =>
      match lookupKey st.elementMap ("#" ++ frag) with
      | some v => add ids v
      | none => ids
    | none => ids
  (fragScan '.' part.data).foldl (fun acc cls =>
    match lookupKey st.elementMap ("." ++ cls) with
    | some v => add acc v
    | none => acc) ids

/-- The loop of `matchesSelectorPath`: one step per remaining selector
part (right to left); each step looks up the candidate's *structural
parent edge* and requires the parent to be among that part's matches. -/
def pathLoop (st : ParserState) (cur : Nat) : List String → Bool
  | [] => true
  | p :: rest =>
    match st.links.find? (fun l => l.target = cur && l.type = "structural") with
    | none => false
    | some pl =>
      if (matchSelectorPart st p).contains pl.source then pathLoop st pl.source rest
      else false

/-- `matchesSelectorPath(nodeId, parts)`: walk upward from the candidate,
checking parts[parts.length-2], …, parts[0] against successive parents. -/
def matchesSelectorPath (st : ParserState) (nodeId : Nat) (parts : List String) : Bool :=
  pathLoop st nodeId parts.dropLast.reverse

/-- The candidate loop of linkStylesToElements for one selector:
each surviving candidate receives a `stylesheet-use` edge from the
stylesheet node, labelled with the normalized selector. -/
def linkCandidates (styleId : Nat) (sel : String) (parts : List String)
    (cands : List Nat) (st : ParserState) : ParserState :=
  cands.foldl (fun s nodeId =>
    if matchesSelectorPath s nodeId parts then
      createLink s styleId nodeId "stylesheet-use" (some ("Applies " ++ sel))
    else s) st

/-- The per-selector body of linkStylesToElements: trim, strip the
pseudo-class suffix, split on whitespace (`.map(trim).filter(Boolean)`
keeps exactly the nonempty tokens), resolve the last part, and link
the candidates that survive the ancestor-path check. -/
def processSelector (styleId : Nat) (st : ParserState) (sel0 : String) : ParserState :=
  let sel := stripPseudo (jsTrim sel0)
  let parts := wsSplit sel
  match parts.getLast? with
  | none => st
  | some lastPart =>
    let cands := matchSelectorPart st lastPart
    linkCandidates styleId sel parts cands st

/-- The per-rule body: only rules of type `"rule"` with a present
`selectors` property (an empty array is truthy) are processed. -/
def processRule (styleId : Nat) (st : ParserState) (rule : CSSRule) : ParserState :=
  if rule.type ≠ "rule" then st
  else match rule.selectors with
    | none => st
    | some sels => sels.foldl (processSelector styleId) st

/-- `linkStylesToElements()`: for each styleMap entry whose css parse
result is present and has a `stylesheet` member, process its rules
(`css.stylesheet.rules || []`). -/
def linkStylesToElements (st : ParserState) : ParserState :=
  st.styleMap.foldl (fun s entry =>
    match entry.2.css with
    | none => s
    | some css =>
      match css.stylesheet with
      | none => s
      | some sheet => (sheet.rules.getD []).foldl (processRule entry.2.id) s) st

/-! ### The pipeline

parseHTML parses the input with parse5 (producing the `#document`
tree), then runs `traverseDOM(document)`,
`extractScriptsAndStyles(document)` and `linkStylesToElements()` in
order on the shared state.  The progress-bar updates and the deferred
renderGraph hand-off touch only the UI and are not part of the
analysis state. -/
def runAnalysis (html : String) (pJS : String → Option JSNode)
    (pCSS : String → Option CSSParsed) (document : DomNode) : ParserState :=
  let st1 := traverseDOM html document none initState
  let st2 := extractScriptsAndStyles pJS pCSS document none st1
  linkStylesToElements st2

/-! ### Concrete parse5 trees and front-end oracles

The documents below are the trees parse5 hands back for the claims'
concrete inputs (implied `html`/`head`/`body` wrappers included, text
content as `#text` children).  The oracles return the syntax trees the
respective front-end produces for exactly the embedded script/style
texts, and `none` (a parser exception) elsewhere. -/

/-- A parse5 element node (no attributes' location info needed). -/
def elemN (tag : String) (attrs : List DomAttr) (cs : List DomNode) : DomNode :=
  .mk tag (some tag) attrs cs none none none

/-- A parse5 text node. -/
def textN (s : String) : DomNode := .mk "#text" none [] [] (some s) none none

/-- A parse5 `#document` node. -/
def docN (cs : List DomNode) : DomNode := .mk "#document" none [] cs none none none

/-- The always-failing script front-end (no script text parses). -/
def pJSnone : String → Option JSNode := fun _ => none

/-- The always-failing style front-end. -/
def pCSSnone : String → Option CSSParsed := fun _ => none

/-- Stylesheet text with the single rule `div.card span { color: red }`. -/
def css1 : String := "div.card span \x7bcolor: red\x7d"

/-- Its css-package parse result. -/
def cssParsed1 : CSSParsed :=
  { stylesheet := some { rules := some [{ type := "rule", selectors := some ["div.card span"] }] } }

def pCSS1 : String → Option CSSParsed :=
  fun s => if s = css1 then some cssParsed1 else none

/-- `<div class="card"><p><span/></p></div>` under the usual
html/head/body skeleton, with the `div.card span` stylesheet in head. -/
def docNestedSpan : DomNode :=
  docN [elemN "html" []
    [elemN "head" [] [elemN "style" [] [textN css1]],
     elemN "body" []
       [elemN "div" [{ name := "class", value := "card" }]
          [elemN "p" [] [elemN "span" [] []]]]]]

/-- Same document, but the span is a *direct* child of the div. -/
def docChildSpan : DomNode :=
  docN [elemN "html" []
    [elemN "head" [] [elemN "style" [] [textN css1]],
     elemN "body" []
       [elemN "div" [{ name := "class", value := "card" }]
          [elemN "span" [] []]]]]

/-- Same stylesheet, but the only span sits outside any `div.card`. -/
def docOutsideSpan : DomNode :=
  docN [elemN "html" []
    [elemN "head" [] [elemN "style" [] [textN css1]],
     elemN "body" []
       [elemN "div" [{ name := "class", value := "card" }] [],
        elemN "span" [] []]]]

/-- A document whose only child is an empty `<style>` element. -/
def docStyleOnly : DomNode := docN [elemN "style" [] []]

/-- A document whose only child is a single `<div>`. -/
def docSingleDiv : DomNode := docN [elemN "div" [] []]

/-- The script text `function f(a) { if (a) { return a; } }`. -/
def sc4 : String := "function f(a) \x7b if (a) \x7b return a; \x7d \x7d"

/-- The acorn AST of `sc4` (offsets as acorn reports them). -/
def ast4 : JSNode :=
  .program (some 0) (some 38)
    [.functionDeclaration (some 0) (some 38)
      (some (.identifier (some 9) (some 10) "f"))
      [.identifier (some 11) (some 12) "a"]
      (some (.blockStatement (some 14) (some 38)
        [.ifStatement (some 16) (some 36)
          (.identifier (some 20) (some 21) "a")
          (.blockStatement (some 23) (some 36)
            [.returnStatement (some 25) (some 34)
              (some (.identifier (some 32) (some 33) "a"))])
          none]))]

def pJS4 : String → Option JSNode := fun s => if s = sc4 then some ast4 else none

/-- `<script>function f(a) { if (a) { return a; } }</script>` inside the
usual skeleton. -/
def docScriptIf : DomNode :=
  docN [elemN "html" []
    [elemN "head" [] [],
     elemN "body" [] [elemN "script" [] [textN sc4]]]]

/-- The input text `<div>hi</div>`. -/
def html6 : String := "<div>hi</div>"

/-- The parse5 tree for `html6`: the div carries its source span as
`sourceCodeLocation` (parse5 v4+ naming, matching the
`sourceCodeLocationInfo` option the code passes); no node carries the
legacy `__location` property. -/
def divLocated : DomNode :=
  .mk "div" (some "div") [] [textN "hi"] none (some { startOffset := 0, endOffset := 13 }) none

def docLocated : DomNode :=
  docN [.mk "html" (some "html") []
    [elemN "head" [] [],
     .mk "body" (some "body") [] [divLocated] none none none]
    none none none]

/-- The script text `function f() { return; }` (an empty return). -/
def sc7 : String := "function f() \x7b return; \x7d"

/-- Its acorn AST: the ReturnStatement has a null `argument`. -/
def ast7 : JSNode :=
  .program (some 0) (some 24)
    [.functionDeclaration (some 0) (some 24)
      (some (.identifier (some 9) (some 10) "f"))
      []
      (some (.blockStatement (some 13) (some 24)
        [.returnStatement (some 15) (some 22) none]))]

def pJS7 : String → Option JSNode := fun s => if s = sc7 then some ast7 else none

/-- `<script>function f() { return; }</script>` inside the skeleton. -/
def docEmptyReturn : DomNode :=
  docN [elemN "html" []
    [elemN "head" [] [],
     elemN "body" [] [elemN "script" [] [textN sc7]]]]

mutual

/-- The number of ReturnStatement nodes in an acorn AST (a measurement
helper for stating claims, not part of the source). -/
def countReturns : JSNode → Nat
  | .program _ _ body => countReturnsList body
  | .functionDeclaration _ _ idOpt params bodyOpt =>
    countReturnsOpt idOpt + countReturnsList params + countReturnsOpt bodyOpt
  | .identifier _ _ _ => 0
  | .blockStatement _ _ body => countReturnsList body
  | .returnStatement _ _ argOpt => 1 + countReturnsOpt argOpt
  | .variableDeclaration _ _ decls => countReturnsList decls
  | .variableDeclarator _ _ did dinit => countReturns did + countReturnsOpt dinit
  | .expressionStatement _ _ expr => countReturns expr
  | .assignmentExpression _ _ l r => countReturns l + countReturns r
  | .ifStatement _ _ t c a => countReturns t + countReturns c + countReturnsOpt a
  | .literal _ _ _ => 0

def countReturnsList : List JSNode → Nat
  | [] => 0
  | n :: rest => countReturns n + countReturnsList rest

def countReturnsOpt : Option JSNode → Nat
  | some n => countReturns n
  | none => 0

end

/-- Stylesheet text `.x { color }` and `.y { color }`. -/
def cssA : String := ".x \x7bcolor\x7d"

def cssB : String := ".y \x7bcolor\x7d"

def cssParsedA : CSSParsed :=
  { stylesheet := some { rules := some [{ type := "rule", selectors := some [".x"] }] } }

def cssParsedB : CSSParsed :=
  { stylesheet := some { rules := some [{ type := "rule", selectors := some [".y"] }] } }

def pCSS9 : String → Option CSSParsed :=
  fun s => if s = cssA then some cssParsedA else if s = cssB then some cssParsedB else none

/-- Two inline stylesheets that both parse, each with a rule whose
selector matches an element of the document. -/
def docTwoStyles : DomNode :=
  docN [elemN "html" []
    [elemN "head" []
      [elemN "style" [] [textN cssA],
       elemN "style" [] [textN cssB]],
     elemN "body" []
       [elemN "div" [{ name := "class", value := "x" }] [],
        elemN "span" [{ name := "class", value := "y" }] []]]]

/-! ### Invariant definitions

Predicates used to state the structural claims about whole analysis
runs.  They are stated over the embedded `ParserState`. -/

/-- The targets of all structural edges, in edge order. -/
def structuralTargets (st : ParserState) : List Nat :=
  (st.links.filter (fun l => l.type == "structural")).map Link.target

/-- The bare structural-edge object createNode pushes. -/
def structuralLink (p t : Nat) : Link :=
  { source := p, target := t, type := "structural", label := none, visible := none }

/-- Shorthand constructor for node records in statements. -/
def gnode (id : Nat) (name type : String) (content : Option String) : GNode :=
  { id := id, name := name, type := type, content := content }

/-- Shorthand constructor for the non-structural edge records
createLink pushes. -/
def glink (source target : Nat) (type : String) (label : Option String) : Link :=
  { source := source, target := target, type := type, label := label, visible := some true }

/-- Nodes that the pipeline creates with a null parent: the traversal
root (id 0) and every node the extraction pass creates (script,
stylesheet, external-style), since that pass never passes a current
element down as parent. -/
def exemptNode (n : GNode) : Bool :=
  n.id == 0 || n.type == "script" || n.type == "stylesheet" || n.type == "external-style"

/-- The number of children that the DOM traversal materializes
(everything except text and comment nodes). -/
def countElems (cs : List DomNode) : Nat :=
  (cs.filter (fun c => !domSkip c)).length

/-- The state invariant maintained by the pipeline. -/
structure Inv (st : ParserState) : Prop where
  ids : st.nodes.map GNode.id = List.range st.nodeId
  targetsLt : ∀ l ∈ st.links, l.type = "structural" → l.target < st.nodeId
  targetsNodup : (structuralTargets st).Nodup
  parentChar : ∀ n ∈ st.nodes, (n.id ∈ structuralTargets st ↔ exemptNode n = false)
  visOk : ∀ l ∈ st.links,
    (l.type = "structural" → l.visible = none ∧ l.label = none)
    ∧ (l.type ≠ "structural" → l.visible = some true)
  styleOk : ∀ e ∈ st.styleMap, e.1 ≠ "inline-stylesheet" → e.2.css = none
  styleKeys : (st.styleMap.map Prod.fst).Nodup

/-- No `stylesheet-use` edge yet (true until the style resolver runs). -/
def NoStyleUse (st : ParserState) : Prop :=
  ∀ l ∈ st.links, l.type ≠ "stylesheet-use"

/-- The node table only grows (by appending), and ids only move up. -/
def Grows (s s' : ParserState) : Prop :=
  s.nodeId ≤ s'.nodeId ∧ ∃ A, s'.nodes = s.nodes ++ A

/-- The links added between the two states are appended at the end, and
every added *structural* edge has as source either the given parent id
or a node id at least `lo`. -/
def AddedSrcLo (p : Option Nat) (lo : Nat) (s s' : ParserState) : Prop :=
  ∃ A, s'.links = s.links ++ A
    ∧ ∀ l ∈ A, l.type = "structural" → ((∃ q, p = some q ∧ l.source = q) ∨ lo ≤ l.source)

/-- `AddedSrcLo` with the bound fixed to the ids created from `s` on. -/
def AddedSrc (p : Option Nat) (s s' : ParserState) : Prop :=
  AddedSrcLo p s.nodeId s s'

/-- Like `AddedSrcLo (some p) lo`, additionally counting the added
structural edges whose source is exactly `p`. -/
def TravLinksLo (p lo k : Nat) (s s' : ParserState) : Prop :=
  ∃ A, s'.links = s.links ++ A
    ∧ (∀ l ∈ A, l.type = "structural" → (l.source = p ∨ lo ≤ l.source))
    ∧ (A.filter (fun l => l.type == "structural" && l.source == p)).length = k

/-- What a single `traverseDOM` call with an actual parent preserves and
produces: the invariant, growth, and exactly one structural edge out of
the parent unless the node is a skipped (text/comment) one. -/
def TravOk (html : String) (n : DomNode) : Prop :=
  ∀ (p : Nat) (st : ParserState), Inv st → NoStyleUse st → p < st.nodeId →
    Inv (traverseDOM html n (some p) st) ∧ NoStyleUse (traverseDOM html n (some p) st)
    ∧ Grows st (traverseDOM html n (some p) st)
    ∧ TravLinksLo p st.nodeId (if domSkip n then 0 else 1) st (traverseDOM html n (some p) st)

/-- What a single `extractScriptsAndStyles` call with the pipeline's
null parent preserves and produces: the invariant, growth, and only
structural edges sourced at ids created during the call. -/
def ExtractOk (pJS : String → Option JSNode) (pCSS : String → Option CSSParsed)
    (n : DomNode) : Prop :=
  ∀ (st : ParserState), Inv st → NoStyleUse st →
    Inv (extractScriptsAndStyles pJS pCSS n none st)
    ∧ NoStyleUse (extractScriptsAndStyles pJS pCSS n none st)
    ∧ Grows st (extractScriptsAndStyles pJS pCSS n none st)
    ∧ AddedSrcLo none st.nodeId st (extractScriptsAndStyles pJS pCSS n none st)

/-- What the style-resolution pass does to a state: it only appends
`stylesheet-use` edges, touching neither nodes nor counter nor style
map. -/
def StyleStep (a b : ParserState) : Prop :=
  b.nodes = a.nodes ∧ b.nodeId = a.nodeId ∧ b.styleMap = a.styleMap
  ∧ ∃ A, b.links = a.links ++ A ∧ ∀ l ∈ A, l.type = "stylesheet-use"

/-- What a single `walkJSNode` call preserves and produces. -/
def WalkOk (sc : String) (m : JSNode) : Prop :=
  ∀ (pid : Nat) (st : ParserState), Inv st → NoStyleUse st → 0 < st.nodeId →
    Inv (walkJSNode sc m pid st) ∧ NoStyleUse (walkJSNode sc m pid st)
    ∧ Grows st (walkJSNode sc m pid st) ∧ AddedSrc (some pid) st (walkJSNode sc m pid st)

/-! ### Claim C1 — descendant-selector matching -/

set_option maxHeartbeats 1600000 in
/-- Claim C1, counterexample.  For the selector `div.card span` over
`<div class="card"><p><span/></p></div>` the claim asserts the span
receives a `stylesheet-use` edge.  It does not: the span node (id 7)
exists, the stylesheet parsed (node 8 carries the rule), yet the run
produces no `stylesheet-use` edge at all, because `matchesSelectorPath`
requires the *immediate* structural parent of the span to be a
`div.card` match, and that parent is the `p` element. -/
theorem claim1_counterexample :
    ((runAnalysis "" pJSnone pCSS1 docNestedSpan).nodes.filter (fun n => n.name == "span")
        = [{ id := 7, name := "span", type := "element", content := none }])
    ∧ ((runAnalysis "" pJSnone pCSS1 docNestedSpan).nodes.filter (fun n => n.type == "stylesheet")
        = [{ id := 8, name := "inline-stylesheet", type := "stylesheet", content := some css1 }])
    ∧ ((runAnalysis "" pJSnone pCSS1 docNestedSpan).links.filter
        (fun ln => ln.type == "stylesheet-use") = []) :=
  ⟨by decide, by decide, by decide⟩

set_option maxHeartbeats 1600000 in
/-- Claim C1, amended.  Selector-path verification walks one structural
parent per selector part (child-combinator semantics, not descendant
semantics): for `div.card span`, a span that is a *direct* child of a
`div.card` receives the `stylesheet-use` edge, the span behind an
intermediate `p` does not, and a span outside any `div.card` receives
none. -/
theorem claim1_amended :
    ((runAnalysis "" pJSnone pCSS1 docNestedSpan).links.filter
        (fun ln => ln.type == "stylesheet-use") = [])
    ∧ ((runAnalysis "" pJSnone pCSS1 docChildSpan).nodes.filter (fun n => n.name == "span")
        = [{ id := 6, name := "span", type := "element", content := none }])
    ∧ ((runAnalysis "" pJSnone pCSS1 docChildSpan).links.filter
        (fun ln => ln.type == "stylesheet-use")
        = [{ source := 7, target := 6, type := "stylesheet-use",
             label := some "Applies div.card span", visible := some true }])
    ∧ ((runAnalysis "" pJSnone pCSS1 docOutsideSpan).links.filter
        (fun ln => ln.type == "stylesheet-use") = []) :=
  ⟨by decide, by decide, by decide, by decide⟩

/-! ### Claim C2 — single-parent containment (counterexample) -/

set_option maxHeartbeats 400000 in
/-- Claim C2, counterexample.  After the full run on
`<style></style>`, the stylesheet node (id 2) is not the traversal
root, yet *no* `structural` edge targets it: the extraction pass
creates script/stylesheet/external-style nodes with a null parent
(its recursion never passes the current element down), so these
non-root nodes have zero structural in-edges, not exactly one. -/
theorem claim2_counterexample :
    ((runAnalysis "" pJSnone pCSSnone docStyleOnly).nodes
        = [{ id := 0, name := "#document", type := "element", content := none },
           { id := 1, name := "style", type := "element", content := none },
           { id := 2, name := "inline-stylesheet", type := "stylesheet", content := some "" }])
    ∧ ((runAnalysis "" pJSnone pCSSnone docStyleOnly).links.filter
        (fun ln => ln.type == "structural" && ln.target == 2) = []) :=
  ⟨by decide, by decide⟩

/-! ### Claim C4 — enclosing-scope discipline (code bug) -/

set_option maxHeartbeats 1000000 in
/-- Claim C4, failing-input evaluation.  For the script
`function f(a) { if (a) { return a; } }` the claim (and the spec)
say the return nested in the if-block yields exactly one node,
parented to the function.  The code creates *two* `Return: a` Output
nodes: the typed FunctionDeclaration case walks the body with the
function (node 6) as scope, and then the reflective
`for (const key in node)` loop re-walks the same body with the outer
scope (the script node 5), duplicating the node under the wrong
scope. -/
theorem claim4_code_bug :
    ((runAnalysis "" pJS4 pCSSnone docScriptIf).nodes.filter (fun n => n.type == "output")
        = [{ id := 8, name := "Return: a", type := "output", content := none },
           { id := 9, name := "Return: a", type := "output", content := none }])
    ∧ ((runAnalysis "" pJS4 pCSSnone docScriptIf).links.filter
        (fun ln => ln.type == "structural" && ln.target == 8)
        = [{ source := 6, target := 8, type := "structural", label := none, visible := none }])
    ∧ ((runAnalysis "" pJS4 pCSSnone docScriptIf).links.filter
        (fun ln => ln.type == "structural" && ln.target == 9)
        = [{ source := 5, target := 9, type := "structural", label := none, visible := none }])
    ∧ ((runAnalysis "" pJS4 pCSSnone docScriptIf).nodes.filter (fun n => n.id == 6)
        = [{ id := 6, name := "Function: f", type := "function", content := some sc4 }])
    ∧ ((runAnalysis "" pJS4 pCSSnone docScriptIf).nodes.filter (fun n => n.id == 5)
        = [{ id := 5, name := "inline-script", type := "script", content := none }]) :=
  ⟨by decide, by decide, by decide, by decide, by decide⟩

/-! ### Claim C6 — element content capture (code bug) -/

set_option maxHeartbeats 400000 in
/-- Claim C6, failing-input evaluation.  For `<div>hi</div>` the parse5
tree carries the div's span as `sourceCodeLocation` (the property the
`sourceCodeLocationInfo` option populates), and the verbatim slice of
that span is the whole element text; yet the created Element node's
`content` is `none`, because traverseDOM reads the legacy `__location`
property, which parse5 output does not have.  So `content` is null even
though span information *is* available. -/
theorem claim6_code_bug :
    ((runAnalysis html6 pJSnone pCSSnone docLocated).nodes.filter (fun n => n.name == "div")
        = [{ id := 4, name := "div", type := "element", content := none }])
    ∧ divLocated.sourceCodeLocation = some { startOffset := 0, endOffset := 13 }
    ∧ jsSubstring html6 0 13 = "<div>hi</div>" :=
  ⟨by decide, by decide, by decide⟩

/-! ### Claim C7 — empty-return handling -/

set_option maxHeartbeats 400000 in
/-- Claim C7, counterexample.  The script `function f() { return; }`
contains one return statement (with no expression); the claim says an
Output node is created for it (with a sentinel label).  The run creates
the Function node, but *zero* Output nodes: the ReturnStatement case is
guarded by `if (node.argument)` and skips empty returns entirely. -/
theorem claim7_counterexample :
    countReturns ast7 = 1
    ∧ (pJS7 sc7).isSome = true
    ∧ ((runAnalysis "" pJS7 pCSSnone docEmptyReturn).nodes.filter (fun n => n.type == "output")
        = [])
    ∧ ((runAnalysis "" pJS7 pCSSnone docEmptyReturn).nodes.filter (fun n => n.id == 6)
        = [{ id := 6, name := "Function: f", type := "function", content := some sc7 }]) :=
  ⟨by decide, by decide, by decide, by decide⟩

/-- Claim C7, amended.  A return statement *with* an expression creates
an Output node labeled `Return: <source text of the expression>` plus a
`structural` edge and an `output` edge from the enclosing scope; a
return statement with no expression creates no node and no edge at
all. -/
theorem claim7_amended (sc : String) (s e : Option Nat) (pid : Nat) (st : ParserState) :
    (walkJSNode sc (.returnStatement s e none) pid st = st)
    ∧ (∀ (ls le : Option Nat) (raw : String),
        ((walkJSNode sc (.returnStatement s e (some (.literal ls le raw))) pid st).nodes
          = st.nodes ++
            [{ id := st.nodeId, name := "Return: " ++ getSourceText sc ls le,
               type := "output", content := none }])
        ∧ ((walkJSNode sc (.returnStatement s e (some (.literal ls le raw))) pid st).links
          = st.links ++
            [{ source := pid, target := st.nodeId, type := "structural", label := none, visible := none },
             { source := pid, target := st.nodeId, type := "output", label := none, visible := some true }])) := by
  obtain ⟨nodes, links, nodeId, nodeMap, styleMap, scriptContentMap, elementMap⟩ := st
  refine ⟨rfl, fun ls le raw => ⟨rfl, ?_⟩⟩
  show (links ++ [{ source := pid, target := nodeId, type := "structural", label := none, visible := none }])
      ++ [{ source := pid, target := nodeId, type := "output", label := none, visible := some true }] = _
  simp

/-! ### Claim C8 — edge record shape (counterexample) -/

set_option maxHeartbeats 400000 in
/-- Claim C8, counterexample.  On `<div/>` the run produces exactly one
edge, the structural edge `0 → 1`, and it carries *no* `visible` field
(and no label): createNode pushes the bare
`{ source, target, type: "structural" }` object, so not every edge has
`visible = true` at creation. -/
theorem claim8_counterexample :
    (runAnalysis "" pJSnone pCSSnone docSingleDiv).links
      = [{ source := 0, target := 1, type := "structural", label := none, visible := none }] := by
  decide

/-! ### General lemmas about the JS-Map model -/

theorem mapSet_mem {K V : Type} [DecidableEq K] (m : List (K × V)) (k : K) (v : V) :
    ∀ e ∈ mapSet m k v, e = (k, v) ∨ e ∈ m := by
  induction m with
  | nil => simp [mapSet]
  | cons hd tl ih =>
    intro e he
    rw [mapSet] at he
    by_cases hk : hd.1 = k
    · simp only [hk, if_true] at he
      rcases List.mem_cons.mp he with h | h
      · exact Or.inl h
      · exact Or.inr (List.mem_cons_of_mem _ h)
    · simp only [hk, if_false] at he
      rcases List.mem_cons.mp he with h | h
      · exact Or.inr (by simp [h])
      · rcases ih e h with h' | h'
        · exact Or.inl h'
        · exact Or.inr (List.mem_cons_of_mem _ h')

theorem mapSet_keys_sub {K V : Type} [DecidableEq K] (m : List (K × V)) (k : K) (v : V) :
    ∀ x ∈ (mapSet m k v).map Prod.fst, x = k ∨ x ∈ m.map Prod.fst := by
  intro x hx
  rcases List.mem_map.mp hx with ⟨e, he, hex⟩
  rcases mapSet_mem m k v e he with h | h
  · left; rw [← hex, h]
  · right; exact List.mem_map.mpr ⟨e, h, hex⟩

theorem mapSet_keys_nodup {K V : Type} [DecidableEq K] (m : List (K × V)) (k : K) (v : V)
    (h : (m.map Prod.fst).Nodup) : ((mapSet m k v).map Prod.fst).Nodup := by
  induction m with
  | nil => simp [mapSet]
  | cons hd tl ih =>
    rw [mapSet]
    by_cases hk : hd.1 = k
    · simpa [hk] using h
    · simp only [hk, if_false, List.map_cons, List.nodup_cons]
      simp only [List.map_cons, List.nodup_cons] at h
      refine ⟨fun hmem => ?_, ih h.2⟩
      rcases mapSet_keys_sub tl k v hd.1 hmem with h' | h'
      · exact hk h'
      · exact h.1 h'

theorem lookupKey_mapSet_self {K V : Type} [DecidableEq K] (m : List (K × V)) (k : K) (v : V) :
    lookupKey (mapSet m k v) k = some v := by
  induction m with
  | nil => simp [mapSet, lookupKey]
  | cons hd tl ih =>
    rw [mapSet]
    by_cases hk : hd.1 = k
    · simp [hk, lookupKey]
    · simp [hk, lookupKey, ih]

theorem lookupKey_of_mem_nodup {K V : Type} [DecidableEq K] (m : List (K × V))
    (e : K × V) (he : e ∈ m) (h : (m.map Prod.fst).Nodup) :
    lookupKey m e.1 = some e.2 := by
  induction m with
  | nil => simp at he
  | cons hd tl ih =>
    simp only [List.map_cons, List.nodup_cons] at h
    rcases List.mem_cons.mp he with h' | h'
    · rw [← h', lookupKey, if_pos rfl]
    · rw [lookupKey]
      have hne : hd.1 ≠ e.1 := by
        intro hcontra
        exact h.1 (hcontra ▸ List.mem_map.mpr ⟨e, h', rfl⟩)
      rw [if_neg hne]
      exact ih h' h.2

/-! ### Equation lemmas for the Graph Store primitives -/

theorem createNode_eq (st : ParserState) (name type : String) (pid : Option Nat)
    (content : Option String) :
    createNode st name type pid content
      = (st.nodeId, ParserState.mk
          (st.nodes ++ [{ id := st.nodeId, name := name, type := type, content := content }])
          (st.links ++ (match pid with
            | some p => [structuralLink p st.nodeId]
            | none => []))
          (st.nodeId + 1)
          (mapSet st.nodeMap st.nodeId { name := name, type := type, content := content })
          st.styleMap st.scriptContentMap st.elementMap) := by
  obtain ⟨nodes, links, nodeId, nodeMap, styleMap, scriptContentMap, elementMap⟩ := st
  cases pid <;> simp [createNode, structuralLink]

theorem createLink_eq (st : ParserState) (s t : Nat) (ty : String) (lbl : Option String)
    (vis : Bool) :
    createLink st s t ty lbl vis
      = ParserState.mk st.nodes
          (st.links ++ [{ source := s, target := t, type := ty, label := normLabel lbl, visible := some vis }])
          st.nodeId st.nodeMap st.styleMap st.scriptContentMap st.elementMap := by
  obtain ⟨nodes, links, nodeId, nodeMap, styleMap, scriptContentMap, elementMap⟩ := st
  simp [createLink]

theorem setElementMap_eq (st : ParserState) (k : String) (v : Nat) :
    setElementMap st k v
      = ParserState.mk st.nodes st.links st.nodeId st.nodeMap st.styleMap
          st.scriptContentMap (mapSet st.elementMap k v) := by
  obtain ⟨nodes, links, nodeId, nodeMap, styleMap, scriptContentMap, elementMap⟩ := st
  simp [setElementMap]

theorem setStyleMap_eq (st : ParserState) (k : String) (v : StyleInfo) :
    setStyleMap st k v
      = ParserState.mk st.nodes st.links st.nodeId st.nodeMap
          (mapSet st.styleMap k v) st.scriptContentMap st.elementMap := by
  obtain ⟨nodes, links, nodeId, nodeMap, styleMap, scriptContentMap, elementMap⟩ := st
  simp [setStyleMap]

theorem setScriptContentMap_eq (st : ParserState) (k : Nat) (v : String) :
    setScriptContentMap st k v
      = ParserState.mk st.nodes st.links st.nodeId st.nodeMap st.styleMap
          (mapSet st.scriptContentMap k v) st.elementMap := by
  obtain ⟨nodes, links, nodeId, nodeMap, styleMap, scriptContentMap, elementMap⟩ := st
  simp [setScriptContentMap]

/-! ### Preservation lemmas for the Graph Store primitives -/

theorem id_lt_of_mem {st : ParserState} (hids : st.nodes.map GNode.id = List.range st.nodeId)
    {n : GNode} (hn : n ∈ st.nodes) : n.id < st.nodeId := by
  have h1 : n.id ∈ st.nodes.map GNode.id := List.mem_map_of_mem GNode.id hn
  rw [hids] at h1
  exact List.mem_range.mp h1

theorem structuralTargets_lt {st : ParserState}
    (hlt : ∀ l ∈ st.links, l.type = "structural" → l.target < st.nodeId) :
    ∀ x ∈ structuralTargets st, x < st.nodeId := by
  intro x hx
  obtain ⟨l, hl, hlx⟩ := List.mem_map.mp hx
  have hmem := List.mem_filter.mp hl
  exact hlx ▸ hlt l hmem.1 (by simpa using hmem.2)

theorem structuralTargets_mk (nodes links nodeId nodeMap styleMap scriptContentMap elementMap) :
    structuralTargets (ParserState.mk nodes links nodeId nodeMap styleMap scriptContentMap elementMap)
      = (links.filter (fun l => l.type == "structural")).map Link.target := rfl

theorem createNode_pres (st : ParserState) (name type : String) (pid : Option Nat)
    (content : Option String) (hInv : Inv st) (hNSU : NoStyleUse st)
    (hex : pid = none ↔ exemptNode { id := st.nodeId, name := name, type := type, content := content } = true) :
    Inv (createNode st name type pid content).2
    ∧ NoStyleUse (createNode st name type pid content).2 := by
  obtain ⟨hids, hlt, hnd, hpc, hvis, hsok, hsk⟩ := hInv
  rw [createNode_eq]
  have hnotin : (st.nodeId : Nat) ∉ structuralTargets st := by
    intro hmem
    exact absurd (structuralTargets_lt hlt st.nodeId hmem) (by omega)
  cases pid with
  | none =>
    have hexempt : exemptNode { id := st.nodeId, name := name, type := type, content := content } = true :=
      hex.mp rfl
    simp only [List.append_nil]
    refine ⟨⟨?_, ?_, ?_, ?_, ?_, ?_, ?_⟩, ?_⟩
    · simp [hids, List.range_succ]
    · intro l hl ht
      exact Nat.lt_succ_of_lt (hlt l hl ht)
    · exact hnd
    · intro n hn
      rw [structuralTargets_mk]
      rcases List.mem_append.mp hn with h | h
      · exact hpc n h
      · have hn' : n = { id := st.nodeId, name := name, type := type, content := content } := by
          simpa using h
        subst hn'
        simp only [hexempt]
        constructor
        · intro hmem
          exact absurd hmem hnotin
        · intro hfalse
          cases hfalse
    · exact hvis
    · exact hsok
    · exact hsk
    · exact hNSU
  | some p =>
    have hexempt : exemptNode { id := st.nodeId, name := name, type := type, content := content } = false := by
      rcases h : exemptNode { id := st.nodeId, name := name, type := type, content := content } with _ | _
      · rfl
      · exact absurd (hex.mpr h) (by simp)
    have hTargets :
        ((st.links ++ [structuralLink p st.nodeId]).filter (fun l => l.type == "structural")).map Link.target
          = structuralTargets st ++ [st.nodeId] := by
      rw [List.filter_append, List.map_append]
      rfl
    refine ⟨⟨?_, ?_, ?_, ?_, ?_, ?_, ?_⟩, ?_⟩
    · simp [hids, List.range_succ]
    · intro l hl ht
      rcases List.mem_append.mp hl with h | h
      · exact Nat.lt_succ_of_lt (hlt l h ht)
      · simp only [List.mem_singleton] at h
        subst h
        simp [structuralLink]
    · rw [structuralTargets_mk, hTargets]
      refine List.Nodup.append hnd (List.nodup_singleton _) ?_
      intro x hx hx'
      simp only [List.mem_singleton] at hx'
      subst hx'
      exact hnotin hx
    · intro n hn
      rw [structuralTargets_mk, hTargets]
      rcases List.mem_append.mp hn with h | h
      · have hlt' : n.id < st.nodeId := id_lt_of_mem hids h
        have hiff := hpc n h
        simp only [List.mem_append, List.mem_singleton]
        constructor
        · intro hmem
          rcases hmem with h' | h'
          · exact hiff.mp h'
          · omega
        · intro h'
          exact Or.inl (hiff.mpr h')
      · have hn' : n = { id := st.nodeId, name := name, type := type, content := content } := by
          simpa using h
        subst hn'
        simp only [hexempt]
        rw [structuralTargets_mk] at hnotin
        simp
    · intro l hl
      rcases List.mem_append.mp hl with h | h
      · exact hvis l h
      · simp only [List.mem_singleton] at h
        subst h
        refine ⟨fun _ => ⟨rfl, rfl⟩, fun hne => absurd rfl hne⟩
    · exact hsok
    · exact hsk
    · intro l hl
      rcases List.mem_append.mp hl with h | h
      · exact hNSU l h
      · simp only [List.mem_singleton] at h
        subst h
        simp [structuralLink]

/-! ### Growth relations: reflexivity, transitivity, fold preservation -/

theorem Grows_refl (s : ParserState) : Grows s s := ⟨le_rfl, [], by simp⟩

theorem Grows_trans {a b c : ParserState} (h1 : Grows a b) (h2 : Grows b c) : Grows a c := by
  obtain ⟨m1, A1, hA1⟩ := h1
  obtain ⟨m2, A2, hA2⟩ := h2
  exact ⟨le_trans m1 m2, A1 ++ A2, by rw [hA2, hA1, List.append_assoc]⟩

theorem AddedSrc_refl (p : Option Nat) (s : ParserState) : AddedSrc p s s :=
  ⟨[], by simp, by simp⟩

theorem AddedSrc_trans {p : Option Nat} {a b c : ParserState} (hmono : a.nodeId ≤ b.nodeId)
    (h1 : AddedSrc p a b) (h2 : AddedSrc p b c) : AddedSrc p a c := by
  obtain ⟨A1, hA1, hs1⟩ := h1
  obtain ⟨A2, hA2, hs2⟩ := h2
  refine ⟨A1 ++ A2, by rw [hA2, hA1, List.append_assoc], ?_⟩
  intro l hl ht
  rcases List.mem_append.mp hl with h | h
  · exact hs1 l h ht
  · rcases hs2 l h ht with h' | h'
    · exact Or.inl h'
    · exact Or.inr (le_trans hmono h')

theorem TravLinksLo_refl (p lo : Nat) (s : ParserState) : TravLinksLo p lo 0 s s :=
  ⟨[], by simp, by simp, by simp⟩

theorem TravLinksLo_trans {p lo : Nat} {k1 k2 : Nat} {a b c : ParserState}
    (h1 : TravLinksLo p lo k1 a b) (h2 : TravLinksLo p lo k2 b c) :
    TravLinksLo p lo (k1 + k2) a c := by
  obtain ⟨A1, hA1, hs1, hc1⟩ := h1
  obtain ⟨A2, hA2, hs2, hc2⟩ := h2
  refine ⟨A1 ++ A2, by rw [hA2, hA1, List.append_assoc], ?_, ?_⟩
  · intro l hl ht
    rcases List.mem_append.mp hl with h | h
    · exact hs1 l h ht
    · exact hs2 l h ht
  · rw [List.filter_append, List.length_append, hc1, hc2]

theorem TravLinksLo_weaken {p lo lo' k : Nat} {a b : ParserState}
    (h : TravLinksLo p lo k a b) (hle : lo' ≤ lo) : TravLinksLo p lo' k a b := by
  obtain ⟨A, hA, hs, hc⟩ := h
  refine ⟨A, hA, ?_, hc⟩
  intro l hl ht
  rcases hs l hl ht with h' | h'
  · exact Or.inl h'
  · exact Or.inr (le_trans hle h')

/-- An `AddedSrcLo`-style fact whose exact-parent id `q` differs from the
counted parent `p` yields a zero count, provided everything in sight is at
least `lo` and `p` is below `lo`. -/
theorem TravLinksLo_retarget {q p lo lo' k : Nat} {a b : ParserState}
    (h : TravLinksLo q lo k a b) (hq : lo' ≤ q) (hlo : lo' ≤ lo) (hp : p < lo') :
    TravLinksLo p lo' 0 a b := by
  obtain ⟨A, hA, hs, _⟩ := h
  have hge : ∀ l ∈ A, l.type = "structural" → lo' ≤ l.source := by
    intro l hl ht
    rcases hs l hl ht with h' | h'
    · exact h' ▸ hq
    · exact le_trans hlo h'
  refine ⟨A, hA, fun l hl ht => Or.inr (hge l hl ht), ?_⟩
  rw [List.length_eq_zero, List.filter_eq_nil_iff]
  intro l hl
  simp only [Bool.and_eq_true, beq_iff_eq, not_and]
  intro ht hsrc
  have := hge l hl ht
  omega

/-- Preservation of a predicate and accumulation of a transitive
relation along a `List.foldl` over states. -/
theorem foldl_pres {α : Type} (f : ParserState → α → ParserState) (l : List α)
    (P : ParserState → Prop) (R : ParserState → ParserState → Prop)
    (hrefl : ∀ s, R s s)
    (htrans : ∀ a b c, P a → R a b → R b c → R a c)
    (hstep : ∀ x ∈ l, ∀ s, P s → P (f s x) ∧ R s (f s x)) :
    ∀ st, P st → P (l.foldl f st) ∧ R st (l.foldl f st) := by
  induction l with
  | nil => intro st hP; exact ⟨hP, hrefl st⟩
  | cons x xs ih =>
    intro st hP
    obtain ⟨hP1, hR1⟩ := hstep x (by simp) st hP
    obtain ⟨hP2, hR2⟩ := ih (fun y hy s hs => hstep y (by simp [hy]) s hs) (f st x) hP1
    exact ⟨hP2, htrans st (f st x) _ hP hR1 hR2⟩

/-! ### Preservation for createLink and the map setters -/

theorem createLink_pres (st : ParserState) (s t : Nat) (ty : String) (lbl : Option String)
    (hInv : Inv st) (hty : ty ≠ "structural") :
    Inv (createLink st s t ty lbl)
    ∧ (createLink st s t ty lbl).links
        = st.links ++ [{ source := s, target := t, type := ty, label := normLabel lbl, visible := some true }]
    ∧ (createLink st s t ty lbl).nodes = st.nodes
    ∧ (createLink st s t ty lbl).nodeId = st.nodeId
    ∧ (createLink st s t ty lbl).styleMap = st.styleMap
    ∧ (createLink st s t ty lbl).scriptContentMap = st.scriptContentMap
    ∧ (createLink st s t ty lbl).elementMap = st.elementMap := by
  obtain ⟨hids, hlt, hnd, hpc, hvis, hsok, hsk⟩ := hInv
  rw [createLink_eq]
  have hfilter : ((st.links ++ [({ source := s, target := t, type := ty, label := normLabel lbl, visible := some true } : Link)]).filter
      (fun l => l.type == "structural")) = st.links.filter (fun l => l.type == "structural") := by
    rw [List.filter_append]
    simp [hty]
  refine ⟨⟨hids, ?_, ?_, ?_, ?_, hsok, hsk⟩, rfl, rfl, rfl, rfl, rfl, rfl⟩
  · intro l hl ht
    rcases List.mem_append.mp hl with h | h
    · exact hlt l h ht
    · simp only [List.mem_singleton] at h
      subst h
      exact absurd ht hty
  · rw [structuralTargets_mk, hfilter]
    exact hnd
  · intro n hn
    rw [structuralTargets_mk, hfilter]
    exact hpc n hn
  · intro l hl
    rcases List.mem_append.mp hl with h | h
    · exact hvis l h
    · simp only [List.mem_singleton] at h
      subst h
      exact ⟨fun h' => absurd h' hty, fun _ => rfl⟩

theorem createLink_nsu (st : ParserState) (s t : Nat) (ty : String) (lbl : Option String)
    (hNSU : NoStyleUse st) (hty : ty ≠ "stylesheet-use") :
    NoStyleUse (createLink st s t ty lbl) := by
  rw [createLink_eq]
  intro l hl
  rcases List.mem_append.mp hl with h | h
  · exact hNSU l h
  · simp only [List.mem_singleton] at h
    subst h
    exact hty

theorem setElementMap_pres (st : ParserState) (k : String) (v : Nat)
    (hInv : Inv st) (hNSU : NoStyleUse st) :
    Inv (setElementMap st k v) ∧ NoStyleUse (setElementMap st k v)
    ∧ (setElementMap st k v).nodes = st.nodes
    ∧ (setElementMap st k v).links = st.links
    ∧ (setElementMap st k v).nodeId = st.nodeId
    ∧ (setElementMap st k v).styleMap = st.styleMap
    ∧ (setElementMap st k v).scriptContentMap = st.scriptContentMap := by
  obtain ⟨hids, hlt, hnd, hpc, hvis, hsok, hsk⟩ := hInv
  rw [setElementMap_eq]
  exact ⟨⟨hids, hlt, hnd, hpc, hvis, hsok, hsk⟩, hNSU, rfl, rfl, rfl, rfl, rfl⟩

theorem setScriptContentMap_pres (st : ParserState) (k : Nat) (v : String)
    (hInv : Inv st) (hNSU : NoStyleUse st) :
    Inv (setScriptContentMap st k v) ∧ NoStyleUse (setScriptContentMap st k v)
    ∧ (setScriptContentMap st k v).nodes = st.nodes
    ∧ (setScriptContentMap st k v).links = st.links
    ∧ (setScriptContentMap st k v).nodeId = st.nodeId
    ∧ (setScriptContentMap st k v).styleMap = st.styleMap := by
  obtain ⟨hids, hlt, hnd, hpc, hvis, hsok, hsk⟩ := hInv
  rw [setScriptContentMap_eq]
  exact ⟨⟨hids, hlt, hnd, hpc, hvis, hsok, hsk⟩, hNSU, rfl, rfl, rfl, rfl⟩

theorem setStyleMap_pres (st : ParserState) (k : String) (v : StyleInfo)
    (hInv : Inv st) (hNSU : NoStyleUse st)
    (hok : k = "inline-stylesheet" ∨ v.css = none) :
    Inv (setStyleMap st k v) ∧ NoStyleUse (setStyleMap st k v)
    ∧ (setStyleMap st k v).nodes = st.nodes
    ∧ (setStyleMap st k v).links = st.links
    ∧ (setStyleMap st k v).nodeId = st.nodeId := by
  obtain ⟨hids, hlt, hnd, hpc, hvis, hsok, hsk⟩ := hInv
  rw [setStyleMap_eq]
  refine ⟨⟨hids, hlt, hnd, hpc, hvis, ?_, ?_⟩, hNSU, rfl, rfl, rfl⟩
  · intro e he hne
    rcases mapSet_mem st.styleMap k v e he with h | h
    · subst h
      rcases hok with h' | h'
      · exact absurd h' hne
      · exact h'
    · exact hsok e h hne
  · exact mapSet_keys_nodup st.styleMap k v hsk

/-! ### Preservation for the per-case helpers of the walkers -/

theorem sizeOf_strongInd {α : Type} [SizeOf α] (P : α → Prop)
    (h : ∀ n, (∀ m, sizeOf m < sizeOf n → P m) → P n) : ∀ n, P n := by
  have haux : ∀ (k : Nat) (n : α), sizeOf n ≤ k → P n := by
    intro k
    induction k with
    | zero =>
      intro n hn
      exact h n (fun m hm => absurd (by omega : sizeOf m < 0) (by omega))
    | succ k ih =>
      intro n hn
      exact h n (fun m hm => ih m (by omega))
  exact fun n => haux (sizeOf n) n le_rfl

theorem exempt_false_of_pos {i : Nat} (hpos : 0 < i) (name type content)
    (h1 : type ≠ "script") (h2 : type ≠ "stylesheet") (h3 : type ≠ "external-style") :
    exemptNode (gnode i name type content) = false := by
  have h0 : i ≠ 0 := by omega
  simp [exemptNode, gnode, h0, h1, h2, h3]

/-- The standard side condition of createNode_pres at a non-exempt
node type with a present parent. -/
theorem hex_some {i : Nat} (hpos : 0 < i) (p : Nat) (name type content)
    (h1 : type ≠ "script") (h2 : type ≠ "stylesheet") (h3 : type ≠ "external-style") :
    (some p = none) ↔ exemptNode (gnode i name type content) = true := by
  rw [exempt_false_of_pos hpos name type content h1 h2 h3]
  simp

theorem processParam_pres (sc : String) (funcId : Nat) (st : ParserState) (param : JSNode)
    (hInv : Inv st) (hNSU : NoStyleUse st) (hpos : 0 < st.nodeId) :
    Inv (processParam sc funcId st param) ∧ NoStyleUse (processParam sc funcId st param)
    ∧ Grows st (processParam sc funcId st param)
    ∧ 0 < (processParam sc funcId st param).nodeId
    ∧ (∃ A, (processParam sc funcId st param).links = st.links ++ A
        ∧ ∀ l ∈ A, l.type = "structural" → l.source = funcId) := by
  obtain ⟨hI1, hN1⟩ := createNode_pres st
    ("Input: " ++ jsOrElseStr (jsName (some param)) (getSourceText sc param.startOf param.endOf))
    "input" (some funcId) none hInv hNSU
    (hex_some hpos funcId _ _ _ (by decide) (by decide) (by decide))
  obtain ⟨hI2, hlinks2, hnodes2, hnid2, _, _, _⟩ := createLink_pres
    (createNode st ("Input: " ++ jsOrElseStr (jsName (some param)) (getSourceText sc param.startOf param.endOf)) "input" (some funcId) none).2
    (createNode st ("Input: " ++ jsOrElseStr (jsName (some param)) (getSourceText sc param.startOf param.endOf)) "input" (some funcId) none).1
    funcId "input" none hI1 (by decide)
  have hN2 := createLink_nsu
    (createNode st ("Input: " ++ jsOrElseStr (jsName (some param)) (getSourceText sc param.startOf param.endOf)) "input" (some funcId) none).2
    (createNode st ("Input: " ++ jsOrElseStr (jsName (some param)) (getSourceText sc param.startOf param.endOf)) "input" (some funcId) none).1
    funcId "input" none hN1 (by decide)
  simp only [processParam]
  simp only [createNode_eq] at hI2 hlinks2 hnodes2 hnid2 hN2 ⊢
  refine ⟨hI2, hN2, ⟨?_, ?_⟩, ?_, ?_⟩
  · rw [hnid2]
    simp
  · exact ⟨_, by rw [hnodes2]⟩
  · rw [hnid2]
    simp
  · refine ⟨[structuralLink funcId st.nodeId] ++
      [{ source := st.nodeId, target := funcId, type := "input", label := normLabel none, visible := some true }], ?_, ?_⟩
    · rw [hlinks2]
      simp
    · intro l hl ht
      rcases List.mem_append.mp hl with h | h
      · simp only [List.mem_singleton] at h
        subst h
        rfl
      · simp only [List.mem_singleton] at h
        subst h
        simp at ht

/-- Generic preservation for the `createNode(parent := pid)` followed by
`createLink(pid, newId, lty)` pattern shared by the Variable, Return and
DomChange switch cases. -/
theorem createNodeLink_pres (st : ParserState) (pid : Nat) (nm ty : String)
    (content : Option String) (lty : String)
    (hInv : Inv st) (hNSU : NoStyleUse st) (hpos : 0 < st.nodeId)
    (hty1 : ty ≠ "script") (hty2 : ty ≠ "stylesheet") (hty3 : ty ≠ "external-style")
    (hl1 : lty ≠ "structural") (hl2 : lty ≠ "stylesheet-use") :
    Inv (createLink (createNode st nm ty (some pid) content).2 pid (createNode st nm ty (some pid) content).1 lty)
    ∧ NoStyleUse (createLink (createNode st nm ty (some pid) content).2 pid (createNode st nm ty (some pid) content).1 lty)
    ∧ Grows st (createLink (createNode st nm ty (some pid) content).2 pid (createNode st nm ty (some pid) content).1 lty)
    ∧ 0 < (createLink (createNode st nm ty (some pid) content).2 pid (createNode st nm ty (some pid) content).1 lty).nodeId
    ∧ (∃ A, (createLink (createNode st nm ty (some pid) content).2 pid (createNode st nm ty (some pid) content).1 lty).links
        = st.links ++ A ∧ ∀ l ∈ A, l.type = "structural" → l.source = pid) := by
  obtain ⟨hI1, hN1⟩ := createNode_pres st nm ty (some pid) content hInv hNSU
    (hex_some hpos pid nm ty content hty1 hty2 hty3)
  obtain ⟨hI2, hlinks2, hnodes2, hnid2, _, _, _⟩ := createLink_pres
    (createNode st nm ty (some pid) content).2 pid
    (createNode st nm ty (some pid) content).1 lty none hI1 hl1
  have hN2 := createLink_nsu (createNode st nm ty (some pid) content).2 pid
    (createNode st nm ty (some pid) content).1 lty none hN1 hl2
  simp only [createNode_eq] at hI2 hlinks2 hnodes2 hnid2 hN2 ⊢
  refine ⟨hI2, hN2, ⟨?_, ?_⟩, ?_, ?_⟩
  · rw [hnid2]
    simp
  · exact ⟨_, by rw [hnodes2]⟩
  · rw [hnid2]
    simp
  · refine ⟨[structuralLink pid st.nodeId] ++
      [{ source := pid, target := st.nodeId, type := lty, label := normLabel none, visible := some true }], ?_, ?_⟩
    · rw [hlinks2]
      simp
    · intro l hl ht
      rcases List.mem_append.mp hl with h | h
      · simp only [List.mem_singleton] at h
        subst h
        rfl
      · simp only [List.mem_singleton] at h
        subst h
        exact absurd ht hl1

theorem processDeclarator_pres (sc : String) (pid : Nat) (st : ParserState) (decl : JSNode)
    (hInv : Inv st) (hNSU : NoStyleUse st) (hpos : 0 < st.nodeId) :
    Inv (processDeclarator sc pid st decl) ∧ NoStyleUse (processDeclarator sc pid st decl)
    ∧ Grows st (processDeclarator sc pid st decl)
    ∧ 0 < (processDeclarator sc pid st decl).nodeId
    ∧ (∃ A, (processDeclarator sc pid st decl).links = st.links ++ A
        ∧ ∀ l ∈ A, l.type = "structural" → l.source = pid) := by
  cases decl
  case variableDeclarator ds de did dinit =>
    exact createNodeLink_pres st pid _ "variable" _ "output" hInv hNSU hpos
      (by decide) (by decide) (by decide) (by decide) (by decide)
  all_goals exact ⟨hInv, hNSU, Grows_refl st, hpos, ⟨[], by simp [processDeclarator], by simp⟩⟩

theorem returnCreate_pres (sc : String) (argOpt : Option JSNode) (pid : Nat) (st : ParserState)
    (hInv : Inv st) (hNSU : NoStyleUse st) (hpos : 0 < st.nodeId) :
    Inv (returnCreate sc argOpt pid st) ∧ NoStyleUse (returnCreate sc argOpt pid st)
    ∧ Grows st (returnCreate sc argOpt pid st)
    ∧ 0 < (returnCreate sc argOpt pid st).nodeId
    ∧ (∃ A, (returnCreate sc argOpt pid st).links = st.links ++ A
        ∧ ∀ l ∈ A, l.type = "structural" → l.source = pid) := by
  cases argOpt with
  | none => exact ⟨hInv, hNSU, Grows_refl st, hpos, ⟨[], by simp [returnCreate], by simp⟩⟩
  | some arg =>
    exact createNodeLink_pres st pid _ "output" _ "output" hInv hNSU hpos
      (by decide) (by decide) (by decide) (by decide) (by decide)

theorem exprCreate_pres (sc : String) (expr : JSNode) (pid : Nat) (st : ParserState)
    (hInv : Inv st) (hNSU : NoStyleUse st) (hpos : 0 < st.nodeId) :
    Inv (exprCreate sc expr pid st) ∧ NoStyleUse (exprCreate sc expr pid st)
    ∧ Grows st (exprCreate sc expr pid st)
    ∧ 0 < (exprCreate sc expr pid st).nodeId
    ∧ (∃ A, (exprCreate sc expr pid st).links = st.links ++ A
        ∧ ∀ l ∈ A, l.type = "structural" → l.source = pid) := by
  cases expr
  case assignmentExpression s e l r =>
    exact createNodeLink_pres st pid _ "dom-change" _ "output" hInv hNSU hpos
      (by decide) (by decide) (by decide) (by decide) (by decide)
  all_goals exact ⟨hInv, hNSU, Grows_refl st, hpos, ⟨[], by simp [exprCreate], by simp⟩⟩

theorem fdCreate_pres (sc : String) (s e : Option Nat) (idOpt : Option JSNode)
    (pid : Nat) (st : ParserState)
    (hInv : Inv st) (hNSU : NoStyleUse st) (hpos : 0 < st.nodeId) :
    Inv (fdCreate sc s e idOpt pid st).2 ∧ NoStyleUse (fdCreate sc s e idOpt pid st).2
    ∧ (fdCreate sc s e idOpt pid st).1 = st.nodeId
    ∧ (fdCreate sc s e idOpt pid st).2.nodeId = st.nodeId + 1
    ∧ Grows st (fdCreate sc s e idOpt pid st).2
    ∧ (∃ A, (fdCreate sc s e idOpt pid st).2.links = st.links ++ A
        ∧ ∀ l ∈ A, l.type = "structural" → l.source = pid) := by
  obtain ⟨hI1, hN1⟩ := createNode_pres st ("Function: " ++ jsOrElseStr (jsName idOpt) "anonymous")
    "function" (some pid) (some (getSourceText sc s e)) hInv hNSU
    (hex_some hpos pid _ _ _ (by decide) (by decide) (by decide))
  refine ⟨hI1, hN1, ?_, ?_, ⟨?_, ?_⟩, ?_⟩
  · rw [fdCreate, createNode_eq]
  · rw [fdCreate, createNode_eq]
  · rw [fdCreate, createNode_eq]
    simp
  · rw [fdCreate, createNode_eq]
    exact ⟨_, rfl⟩
  · refine ⟨[structuralLink pid st.nodeId], ?_, ?_⟩
    · rw [fdCreate, createNode_eq]
    · intro l hl ht
      simp only [List.mem_singleton] at hl
      subst hl
      rfl

theorem processAttr_pres (cid : Nat) (st : ParserState) (attr : DomAttr)
    (hInv : Inv st) (hNSU : NoStyleUse st) (hpos : 0 < st.nodeId) :
    Inv (processAttr cid st attr) ∧ NoStyleUse (processAttr cid st attr)
    ∧ Grows st (processAttr cid st attr)
    ∧ 0 < (processAttr cid st attr).nodeId
    ∧ (∃ A, (processAttr cid st attr).links = st.links ++ A
        ∧ ∀ l ∈ A, l.type = "structural" → l.source = cid) := by
  rw [processAttr]
  by_cases h1 : attr.name = "id"
  · simp only [h1, if_true]
    obtain ⟨hI, hN, hnodes, hlinks, hnid, _, _⟩ := setElementMap_pres st ("#" ++ attr.value) cid hInv hNSU
    exact ⟨hI, hN, ⟨le_of_eq hnid.symm, [], by simp [hnodes]⟩, by rw [hnid]; exact hpos,
      ⟨[], by simp [hlinks], by simp⟩⟩
  · simp only [h1, if_false]
    by_cases h2 : attr.name = "class"
    · simp only [h2, if_true]
      have hfold := foldl_pres (fun s cls => setElementMap s ("." ++ cls) cid) (wsSplit attr.value)
        (fun s => Inv s ∧ NoStyleUse s ∧ 0 < s.nodeId)
        (fun a b => b.nodes = a.nodes ∧ b.links = a.links ∧ b.nodeId = a.nodeId)
        (fun s => ⟨rfl, rfl, rfl⟩)
        (fun a b c _ r1 r2 => ⟨r2.1.trans r1.1, r2.2.1.trans r1.2.1, r2.2.2.trans r1.2.2⟩)
        (fun x _ s hs => by
          obtain ⟨hsI, hsN, hsP⟩ := hs
          obtain ⟨hI, hN, hnodes, hlinks, hnid, _, _⟩ := setElementMap_pres s ("." ++ x) cid hsI hsN
          exact ⟨⟨hI, hN, by rw [hnid]; exact hsP⟩, hnodes, hlinks, hnid⟩)
        st ⟨hInv, hNSU, hpos⟩
      obtain ⟨⟨hI, hN, hp⟩, hnodes, hlinks, hnid⟩ := hfold
      exact ⟨hI, hN, ⟨le_of_eq hnid.symm, [], by simp [hnodes]⟩, hp,
        ⟨[], by simp [hlinks], by simp⟩⟩
    · simp only [h2, if_false]
      by_cases h3 : attr.name = "style"
      · simp only [h3, if_true]
        obtain ⟨hI, hN⟩ := createNode_pres st "Inline Style" "inline-style" (some cid) (some attr.value) hInv hNSU
          (hex_some hpos cid _ _ _ (by decide) (by decide) (by decide))
        simp only [createNode_eq] at hI hN ⊢
        refine ⟨hI, hN, ⟨by simp, _, rfl⟩, by simp, ⟨[structuralLink cid st.nodeId], rfl, ?_⟩⟩
        intro l hl _
        simp only [List.mem_singleton] at hl
        subst hl
        rfl
      · simp only [h3, if_false]
        exact ⟨hInv, hNSU, Grows_refl st, hpos, ⟨[], by simp, by simp⟩⟩

/-! ### Composition lemmas for AddedSrcLo -/

theorem AddedSrcLo_refl (p : Option Nat) (lo : Nat) (s : ParserState) : AddedSrcLo p lo s s :=
  ⟨[], by simp, by simp⟩

theorem AddedSrcLo_trans {p : Option Nat} {lo : Nat} {a b c : ParserState}
    (h1 : AddedSrcLo p lo a b) (h2 : AddedSrcLo p lo b c) : AddedSrcLo p lo a c := by
  obtain ⟨A1, hA1, hs1⟩ := h1
  obtain ⟨A2, hA2, hs2⟩ := h2
  refine ⟨A1 ++ A2, by rw [hA2, hA1, List.append_assoc], ?_⟩
  intro l hl ht
  rcases List.mem_append.mp hl with h | h
  · exact hs1 l h ht
  · exact hs2 l h ht

theorem AddedSrcLo_weaken {p : Option Nat} {lo lo' : Nat} {a b : ParserState}
    (h : AddedSrcLo p lo a b) (hle : lo' ≤ lo) : AddedSrcLo p lo' a b := by
  obtain ⟨A, hA, hs⟩ := h
  refine ⟨A, hA, ?_⟩
  intro l hl ht
  rcases hs l hl ht with h' | h'
  · exact Or.inl h'
  · exact Or.inr (le_trans hle h')

theorem AddedSrcLo_of_exact_pid {x : Nat} {lo : Nat} {a b : ParserState} (A : List Link)
    (heq : b.links = a.links ++ A)
    (hsrc : ∀ l ∈ A, l.type = "structural" → l.source = x) :
    AddedSrcLo (some x) lo a b :=
  ⟨A, heq, fun l hl ht => Or.inl ⟨x, rfl, hsrc l hl ht⟩⟩

theorem AddedSrcLo_of_exact_lo {p : Option Nat} {x lo : Nat} {a b : ParserState} (A : List Link)
    (heq : b.links = a.links ++ A)
    (hsrc : ∀ l ∈ A, l.type = "structural" → l.source = x) (hx : lo ≤ x) :
    AddedSrcLo p lo a b :=
  ⟨A, heq, fun l hl ht => Or.inr (hsrc l hl ht ▸ hx)⟩

theorem AddedSrcLo_of_some {p : Option Nat} {x lo : Nat} {a b : ParserState}
    (h : AddedSrcLo (some x) lo a b) (hx : lo ≤ x) : AddedSrcLo p lo a b := by
  obtain ⟨A, hA, hs⟩ := h
  refine ⟨A, hA, ?_⟩
  intro l hl ht
  rcases hs l hl ht with ⟨q, hq, hsrc⟩ | h'
  · cases hq
    exact Or.inr (hsrc ▸ hx)
  · exact Or.inr h'

/-! ### Preservation for the JS walkers -/

theorem walkJSList_ok (sc : String) (B : Nat)
    (hP : ∀ m : JSNode, sizeOf m < B → WalkOk sc m) :
    ∀ (ns : List JSNode), sizeOf ns ≤ B → ∀ (pid : Nat) (st : ParserState),
      Inv st → NoStyleUse st → 0 < st.nodeId →
      Inv (walkJSList sc ns pid st) ∧ NoStyleUse (walkJSList sc ns pid st)
      ∧ Grows st (walkJSList sc ns pid st) ∧ AddedSrc (some pid) st (walkJSList sc ns pid st) := by
  intro ns
  induction ns with
  | nil =>
    intro _ pid st hI hN hp
    exact ⟨hI, hN, Grows_refl st, AddedSrcLo_refl _ _ st⟩
  | cons n rest ih =>
    intro hsz pid st hI hN hp
    rw [walkJSList]
    have hn : sizeOf n < B := by
      simp only [List.cons.sizeOf_spec] at hsz
      omega
    have hrest : sizeOf rest ≤ B := by
      simp only [List.cons.sizeOf_spec] at hsz
      omega
    obtain ⟨hI1, hN1, hG1, hA1⟩ := hP n hn pid st hI hN hp
    have hp1 : 0 < (walkJSNode sc n pid st).nodeId := lt_of_lt_of_le hp hG1.1
    obtain ⟨hI2, hN2, hG2, hA2⟩ := ih hrest pid _ hI1 hN1 hp1
    exact ⟨hI2, hN2, Grows_trans hG1 hG2,
      AddedSrcLo_trans hA1 (AddedSrcLo_weaken hA2 hG1.1)⟩

theorem walkJSOpt_ok (sc : String) (B : Nat)
    (hP : ∀ m : JSNode, sizeOf m < B → WalkOk sc m) :
    ∀ (o : Option JSNode), sizeOf o ≤ B → ∀ (pid : Nat) (st : ParserState),
      Inv st → NoStyleUse st → 0 < st.nodeId →
      Inv (walkJSOpt sc o pid st) ∧ NoStyleUse (walkJSOpt sc o pid st)
      ∧ Grows st (walkJSOpt sc o pid st) ∧ AddedSrc (some pid) st (walkJSOpt sc o pid st) := by
  intro o
  cases o with
  | none =>
    intro _ pid st hI hN hp
    exact ⟨hI, hN, Grows_refl st, AddedSrcLo_refl _ _ st⟩
  | some m =>
    intro hsz pid st hI hN hp
    have hm : sizeOf m < B := by
      simp only [Option.some.sizeOf_spec] at hsz
      omega
    exact hP m hm pid st hI hN hp

theorem walkFnBody_ok (sc : String) (B : Nat)
    (hP : ∀ m : JSNode, sizeOf m < B → WalkOk sc m) :
    ∀ (o : Option JSNode), sizeOf o ≤ B → ∀ (funcId : Nat) (st : ParserState),
      Inv st → NoStyleUse st → 0 < st.nodeId →
      Inv (walkFnBody sc o funcId st) ∧ NoStyleUse (walkFnBody sc o funcId st)
      ∧ Grows st (walkFnBody sc o funcId st) ∧ AddedSrc (some funcId) st (walkFnBody sc o funcId st) := by
  intro o hsz funcId st hI hN hp
  match o with
  | none =>
    exact ⟨hI, hN, Grows_refl st, AddedSrcLo_refl _ _ st⟩
  | some (.blockStatement bs be stmts) =>
    have hstmts : sizeOf stmts ≤ B := by
      simp only [Option.some.sizeOf_spec, JSNode.blockStatement.sizeOf_spec] at hsz
      omega
    exact walkJSList_ok sc B hP stmts hstmts funcId st hI hN hp
  | some (.program ps pe stmts) =>
    have hstmts : sizeOf stmts ≤ B := by
      simp only [Option.some.sizeOf_spec, JSNode.program.sizeOf_spec] at hsz
      omega
    exact walkJSList_ok sc B hP stmts hstmts funcId st hI hN hp
  | some (.functionDeclaration a b c d e) => exact ⟨hI, hN, Grows_refl st, AddedSrcLo_refl _ _ st⟩
  | some (.identifier a b c) => exact ⟨hI, hN, Grows_refl st, AddedSrcLo_refl _ _ st⟩
  | some (.returnStatement a b c) => exact ⟨hI, hN, Grows_refl st, AddedSrcLo_refl _ _ st⟩
  | some (.variableDeclaration a b c) => exact ⟨hI, hN, Grows_refl st, AddedSrcLo_refl _ _ st⟩
  | some (.variableDeclarator a b c d) => exact ⟨hI, hN, Grows_refl st, AddedSrcLo_refl _ _ st⟩
  | some (.expressionStatement a b c) => exact ⟨hI, hN, Grows_refl st, AddedSrcLo_refl _ _ st⟩
  | some (.assignmentExpression a b c d) => exact ⟨hI, hN, Grows_refl st, AddedSrcLo_refl _ _ st⟩
  | some (.ifStatement a b c d e) => exact ⟨hI, hN, Grows_refl st, AddedSrcLo_refl _ _ st⟩
  | some (.literal a b c) => exact ⟨hI, hN, Grows_refl st, AddedSrcLo_refl _ _ st⟩

/-! ### The main preservation theorem for walkJSNode -/

theorem walk_ok (sc : String) : ∀ n : JSNode, WalkOk sc n := by
  refine sizeOf_strongInd (WalkOk sc) ?_
  intro n IH
  intro pid st hI hN hp
  cases n with
  | program s e body =>
    have hsz : sizeOf body ≤ sizeOf (JSNode.program s e body) := by
      simp only [JSNode.program.sizeOf_spec]
      omega
    exact walkJSList_ok sc (sizeOf (JSNode.program s e body)) IH body hsz pid st hI hN hp
  | identifier s e nm =>
    exact ⟨hI, hN, Grows_refl st, AddedSrcLo_refl _ _ st⟩
  | literal s e raw =>
    exact ⟨hI, hN, Grows_refl st, AddedSrcLo_refl _ _ st⟩
  | blockStatement s e body =>
    have hsz : sizeOf body ≤ sizeOf (JSNode.blockStatement s e body) := by
      simp only [JSNode.blockStatement.sizeOf_spec]
      omega
    exact walkJSList_ok sc (sizeOf (JSNode.blockStatement s e body)) IH body hsz pid st hI hN hp
  | returnStatement s e argOpt =>
    have hsz : sizeOf argOpt ≤ sizeOf (JSNode.returnStatement s e argOpt) := by
      simp only [JSNode.returnStatement.sizeOf_spec]
      omega
    obtain ⟨hI1, hN1, hG1, hp1, A1, hA1, hs1⟩ := returnCreate_pres sc argOpt pid st hI hN hp
    obtain ⟨hI2, hN2, hG2, hA2⟩ :=
      walkJSOpt_ok sc (sizeOf (JSNode.returnStatement s e argOpt)) IH argOpt hsz pid _ hI1 hN1 hp1
    exact ⟨hI2, hN2, Grows_trans hG1 hG2,
      AddedSrcLo_trans (AddedSrcLo_of_exact_pid A1 hA1 hs1) (AddedSrcLo_weaken hA2 hG1.1)⟩
  | variableDeclaration s e decls =>
    have hsz : sizeOf decls ≤ sizeOf (JSNode.variableDeclaration s e decls) := by
      simp only [JSNode.variableDeclaration.sizeOf_spec]
      omega
    have hfold := foldl_pres (processDeclarator sc pid) decls
      (fun s2 => Inv s2 ∧ NoStyleUse s2 ∧ 0 < s2.nodeId)
      (fun a b => Grows a b ∧ AddedSrcLo (some pid) st.nodeId a b)
      (fun s2 => ⟨Grows_refl s2, AddedSrcLo_refl _ _ s2⟩)
      (fun a b c _ r1 r2 => ⟨Grows_trans r1.1 r2.1, AddedSrcLo_trans r1.2 r2.2⟩)
      (fun x _ s2 hs2 => by
        obtain ⟨hsI, hsN, hsP⟩ := hs2
        obtain ⟨hI1, hN1, hG1, hp1, A1, hA1, hs1⟩ := processDeclarator_pres sc pid s2 x hsI hsN hsP
        exact ⟨⟨hI1, hN1, hp1⟩, hG1, AddedSrcLo_of_exact_pid A1 hA1 hs1⟩)
      st ⟨hI, hN, hp⟩
    obtain ⟨⟨hI1, hN1, hp1⟩, hG1, hA1⟩ := hfold
    obtain ⟨hI2, hN2, hG2, hA2⟩ :=
      walkJSList_ok sc (sizeOf (JSNode.variableDeclaration s e decls)) IH decls hsz pid _ hI1 hN1 hp1
    exact ⟨hI2, hN2, Grows_trans hG1 hG2,
      AddedSrcLo_trans hA1 (AddedSrcLo_weaken hA2 hG1.1)⟩
  | variableDeclarator s e did dinit =>
    have hsz1 : sizeOf did < sizeOf (JSNode.variableDeclarator s e did dinit) := by
      simp only [JSNode.variableDeclarator.sizeOf_spec]
      omega
    have hsz2 : sizeOf dinit ≤ sizeOf (JSNode.variableDeclarator s e did dinit) := by
      simp only [JSNode.variableDeclarator.sizeOf_spec]
      omega
    obtain ⟨hI1, hN1, hG1, hA1⟩ := IH did hsz1 pid st hI hN hp
    have hp1 : 0 < (walkJSNode sc did pid st).nodeId := lt_of_lt_of_le hp hG1.1
    obtain ⟨hI2, hN2, hG2, hA2⟩ :=
      walkJSOpt_ok sc (sizeOf (JSNode.variableDeclarator s e did dinit)) IH dinit hsz2 pid _ hI1 hN1 hp1
    exact ⟨hI2, hN2, Grows_trans hG1 hG2,
      AddedSrcLo_trans hA1 (AddedSrcLo_weaken hA2 hG1.1)⟩
  | expressionStatement s e expr =>
    have hsz : sizeOf expr < sizeOf (JSNode.expressionStatement s e expr) := by
      simp only [JSNode.expressionStatement.sizeOf_spec]
      omega
    obtain ⟨hI1, hN1, hG1, hp1, A1, hA1, hs1⟩ := exprCreate_pres sc expr pid st hI hN hp
    obtain ⟨hI2, hN2, hG2, hA2⟩ := IH expr hsz pid _ hI1 hN1 hp1
    exact ⟨hI2, hN2, Grows_trans hG1 hG2,
      AddedSrcLo_trans (AddedSrcLo_of_exact_pid A1 hA1 hs1) (AddedSrcLo_weaken hA2 hG1.1)⟩
  | assignmentExpression s e l r =>
    have hsz1 : sizeOf l < sizeOf (JSNode.assignmentExpression s e l r) := by
      simp only [JSNode.assignmentExpression.sizeOf_spec]
      omega
    have hsz2 : sizeOf r < sizeOf (JSNode.assignmentExpression s e l r) := by
      simp only [JSNode.assignmentExpression.sizeOf_spec]
      omega
    obtain ⟨hI1, hN1, hG1, hA1⟩ := IH l hsz1 pid st hI hN hp
    have hp1 : 0 < (walkJSNode sc l pid st).nodeId := lt_of_lt_of_le hp hG1.1
    obtain ⟨hI2, hN2, hG2, hA2⟩ := IH r hsz2 pid _ hI1 hN1 hp1
    exact ⟨hI2, hN2, Grows_trans hG1 hG2,
      AddedSrcLo_trans hA1 (AddedSrcLo_weaken hA2 hG1.1)⟩
  | ifStatement s e t cons alt =>
    have hsz1 : sizeOf t < sizeOf (JSNode.ifStatement s e t cons alt) := by
      simp only [JSNode.ifStatement.sizeOf_spec]
      omega
    have hsz2 : sizeOf cons < sizeOf (JSNode.ifStatement s e t cons alt) := by
      simp only [JSNode.ifStatement.sizeOf_spec]
      omega
    have hsz3 : sizeOf alt ≤ sizeOf (JSNode.ifStatement s e t cons alt) := by
      simp only [JSNode.ifStatement.sizeOf_spec]
      omega
    obtain ⟨hI1, hN1, hG1, hA1⟩ := IH t hsz1 pid st hI hN hp
    have hp1 : 0 < (walkJSNode sc t pid st).nodeId := lt_of_lt_of_le hp hG1.1
    obtain ⟨hI2, hN2, hG2, hA2⟩ := IH cons hsz2 pid _ hI1 hN1 hp1
    have hp2 : 0 < (walkJSNode sc cons pid (walkJSNode sc t pid st)).nodeId :=
      lt_of_lt_of_le hp1 hG2.1
    obtain ⟨hI3, hN3, hG3, hA3⟩ :=
      walkJSOpt_ok sc (sizeOf (JSNode.ifStatement s e t cons alt)) IH alt hsz3 pid _ hI2 hN2 hp2
    exact ⟨hI3, hN3, Grows_trans hG1 (Grows_trans hG2 hG3),
      AddedSrcLo_trans hA1 (AddedSrcLo_trans (AddedSrcLo_weaken hA2 hG1.1)
        (AddedSrcLo_weaken hA3 (le_trans hG1.1 hG2.1)))⟩
  | functionDeclaration s e idOpt params bodyOpt =>
    have hszid : sizeOf idOpt ≤ sizeOf (JSNode.functionDeclaration s e idOpt params bodyOpt) := by
      simp only [JSNode.functionDeclaration.sizeOf_spec]
      omega
    have hszparams : sizeOf params ≤ sizeOf (JSNode.functionDeclaration s e idOpt params bodyOpt) := by
      simp only [JSNode.functionDeclaration.sizeOf_spec]
      omega
    have hszbody : sizeOf bodyOpt ≤ sizeOf (JSNode.functionDeclaration s e idOpt params bodyOpt) := by
      simp only [JSNode.functionDeclaration.sizeOf_spec]
      omega
    obtain ⟨hI1, hN1, hfid, hnid1, hG1, A1, hA1, hs1⟩ := fdCreate_pres sc s e idOpt pid st hI hN hp
    have hp1 : 0 < (fdCreate sc s e idOpt pid st).2.nodeId := by omega
    have hfold := foldl_pres (processParam sc (fdCreate sc s e idOpt pid st).1) params
      (fun s2 => Inv s2 ∧ NoStyleUse s2 ∧ 0 < s2.nodeId)
      (fun a b => Grows a b ∧ AddedSrcLo (some pid) st.nodeId a b)
      (fun s2 => ⟨Grows_refl s2, AddedSrcLo_refl _ _ s2⟩)
      (fun a b c _ r1 r2 => ⟨Grows_trans r1.1 r2.1, AddedSrcLo_trans r1.2 r2.2⟩)
      (fun x _ s2 hs2 => by
        obtain ⟨hsI, hsN, hsP⟩ := hs2
        obtain ⟨hI', hN', hG', hp', A', hA', hs'⟩ :=
          processParam_pres sc (fdCreate sc s e idOpt pid st).1 s2 x hsI hsN hsP
        exact ⟨⟨hI', hN', hp'⟩, hG',
          AddedSrcLo_of_exact_lo A' hA' hs' (by rw [hfid])⟩)
      (fdCreate sc s e idOpt pid st).2 ⟨hI1, hN1, hp1⟩
    obtain ⟨⟨hI2, hN2, hp2⟩, hG2, hA2⟩ := hfold
    obtain ⟨hI3, hN3, hG3, hA3⟩ :=
      walkFnBody_ok sc (sizeOf (JSNode.functionDeclaration s e idOpt params bodyOpt)) IH bodyOpt hszbody
        (fdCreate sc s e idOpt pid st).1 _ hI2 hN2 hp2
    have hp3 : 0 < (walkFnBody sc bodyOpt (fdCreate sc s e idOpt pid st).1
        (params.foldl (processParam sc (fdCreate sc s e idOpt pid st).1) (fdCreate sc s e idOpt pid st).2)).nodeId :=
      lt_of_lt_of_le hp2 hG3.1
    obtain ⟨hI4, hN4, hG4, hA4⟩ :=
      walkJSOpt_ok sc (sizeOf (JSNode.functionDeclaration s e idOpt params bodyOpt)) IH idOpt hszid pid _ hI3 hN3 hp3
    have hp4 : 0 < (walkJSOpt sc idOpt pid _).nodeId := lt_of_lt_of_le hp3 hG4.1
    obtain ⟨hI5, hN5, hG5, hA5⟩ :=
      walkJSList_ok sc (sizeOf (JSNode.functionDeclaration s e idOpt params bodyOpt)) IH params hszparams pid _ hI4 hN4 hp4
    have hp5 : 0 < (walkJSList sc params pid _).nodeId := lt_of_lt_of_le hp4 hG5.1
    obtain ⟨hI6, hN6, hG6, hA6⟩ :=
      walkJSOpt_ok sc (sizeOf (JSNode.functionDeclaration s e idOpt params bodyOpt)) IH bodyOpt hszbody pid _ hI5 hN5 hp5
    have hm1 : st.nodeId ≤ (fdCreate sc s e idOpt pid st).2.nodeId := hG1.1
    have hm2 := hG2.1
    have hm3 := hG3.1
    have hm4 := hG4.1
    have hm5 := hG5.1
    refine ⟨hI6, hN6,
      Grows_trans hG1 (Grows_trans hG2 (Grows_trans hG3 (Grows_trans hG4 (Grows_trans hG5 hG6)))), ?_⟩
    refine AddedSrcLo_trans (AddedSrcLo_of_exact_pid A1 hA1 hs1) ?_
    refine AddedSrcLo_trans hA2 ?_
    refine AddedSrcLo_trans
      (AddedSrcLo_of_some (AddedSrcLo_weaken hA3 (le_trans hm1 hm2)) (by rw [hfid])) ?_
    refine AddedSrcLo_trans (AddedSrcLo_weaken hA4 (le_trans hm1 (le_trans hm2 hm3))) ?_
    refine AddedSrcLo_trans (AddedSrcLo_weaken hA5 (le_trans hm1 (le_trans hm2 (le_trans hm3 hm4)))) ?_
    exact AddedSrcLo_weaken hA6 (le_trans hm1 (le_trans hm2 (le_trans hm3 (le_trans hm4 hm5))))

/-! ### Preservation for the DOM traversal -/

theorem countElems_cons (c : DomNode) (rest : List DomNode) :
    countElems (c :: rest) = (if domSkip c then 0 else 1) + countElems rest := by
  by_cases h : domSkip c = true
  · simp [countElems, List.filter_cons, h]
  · simp [countElems, List.filter_cons, h, Nat.add_comm]

/-- The element part of a non-skipped `traverseDOM` call: create the
node (with its structural edge), register it in the element map, and
fold over the attributes. -/
theorem travElem_pres (nm : String) (content : Option String) (attrs : List DomAttr)
    (p : Nat) (st : ParserState) (hI : Inv st) (hN : NoStyleUse st) (hp : p < st.nodeId) :
    Inv (attrs.foldl (processAttr (createNode st nm "element" (some p) content).1)
        (setElementMap (createNode st nm "element" (some p) content).2 nm
          (createNode st nm "element" (some p) content).1))
    ∧ NoStyleUse (attrs.foldl (processAttr (createNode st nm "element" (some p) content).1)
        (setElementMap (createNode st nm "element" (some p) content).2 nm
          (createNode st nm "element" (some p) content).1))
    ∧ Grows st (attrs.foldl (processAttr (createNode st nm "element" (some p) content).1)
        (setElementMap (createNode st nm "element" (some p) content).2 nm
          (createNode st nm "element" (some p) content).1))
    ∧ TravLinksLo p st.nodeId 1 st
        (attrs.foldl (processAttr (createNode st nm "element" (some p) content).1)
          (setElementMap (createNode st nm "element" (some p) content).2 nm
            (createNode st nm "element" (some p) content).1))
    ∧ st.nodeId < (attrs.foldl (processAttr (createNode st nm "element" (some p) content).1)
        (setElementMap (createNode st nm "element" (some p) content).2 nm
          (createNode st nm "element" (some p) content).1)).nodeId
    ∧ (createNode st nm "element" (some p) content).1 = st.nodeId := by
  have hpos : 0 < st.nodeId := by omega
  have hpr := createNode_eq st nm "element" (some p) content
  obtain ⟨hI1, hN1⟩ := createNode_pres st nm "element" (some p) content hI hN
    (hex_some hpos p _ _ _ (by decide) (by decide) (by decide))
  have hcid : (createNode st nm "element" (some p) content).1 = st.nodeId := by rw [hpr]
  have hnid1 : (createNode st nm "element" (some p) content).2.nodeId = st.nodeId + 1 := by
    rw [hpr]
  have hG1 : Grows st (createNode st nm "element" (some p) content).2 :=
    ⟨by rw [hnid1]; omega, _, by rw [hpr]⟩
  have hT1 : TravLinksLo p st.nodeId 1 st (createNode st nm "element" (some p) content).2 := by
    refine ⟨[structuralLink p st.nodeId], by rw [hpr], ?_, by simp [structuralLink]⟩
    intro l hl _
    simp only [List.mem_singleton] at hl
    subst hl
    exact Or.inl rfl
  obtain ⟨hI2, hN2, hnodes2, hlinks2, hnid2, _, _⟩ :=
    setElementMap_pres (createNode st nm "element" (some p) content).2 nm
      (createNode st nm "element" (some p) content).1 hI1 hN1
  have hG2 : Grows (createNode st nm "element" (some p) content).2
      (setElementMap (createNode st nm "element" (some p) content).2 nm
        (createNode st nm "element" (some p) content).1) :=
    ⟨le_of_eq hnid2.symm, [], by simp [hnodes2]⟩
  have hT2 : TravLinksLo p st.nodeId 0 (createNode st nm "element" (some p) content).2
      (setElementMap (createNode st nm "element" (some p) content).2 nm
        (createNode st nm "element" (some p) content).1) :=
    ⟨[], by simp [hlinks2], by simp, by simp⟩
  obtain ⟨⟨hI3, hN3, hpos3⟩, hG3, A3, hlinks3, hsrc3⟩ :=
    foldl_pres (processAttr (createNode st nm "element" (some p) content).1) attrs
      (fun s => Inv s ∧ NoStyleUse s ∧ 0 < s.nodeId)
      (fun a b => Grows a b ∧ ∃ A, b.links = a.links ++ A
        ∧ ∀ l ∈ A, l.type = "structural" →
          l.source = (createNode st nm "element" (some p) content).1)
      (fun s => ⟨Grows_refl s, [], by simp, by simp⟩)
      (fun a b c _ r1 r2 => by
        obtain ⟨g1, A1, e1, s1⟩ := r1
        obtain ⟨g2, A2, e2, s2⟩ := r2
        refine ⟨Grows_trans g1 g2, A1 ++ A2, by rw [e2, e1, List.append_assoc], ?_⟩
        intro l hl ht
        rcases List.mem_append.mp hl with h | h
        · exact s1 l h ht
        · exact s2 l h ht)
      (fun x _ s hsP => by
        obtain ⟨hsI, hsN, hsp⟩ := hsP
        obtain ⟨aI, aN, aG, ap, aA, aeq, asrc⟩ :=
          processAttr_pres (createNode st nm "element" (some p) content).1 s x hsI hsN hsp
        exact ⟨⟨aI, aN, ap⟩, aG, aA, aeq, asrc⟩)
      (setElementMap (createNode st nm "element" (some p) content).2 nm
        (createNode st nm "element" (some p) content).1)
      ⟨hI2, hN2, by rw [hnid2, hnid1]; omega⟩
  have hT3 : TravLinksLo p st.nodeId 0
      (setElementMap (createNode st nm "element" (some p) content).2 nm
        (createNode st nm "element" (some p) content).1)
      (attrs.foldl (processAttr (createNode st nm "element" (some p) content).1)
        (setElementMap (createNode st nm "element" (some p) content).2 nm
          (createNode st nm "element" (some p) content).1)) := by
    refine ⟨A3, hlinks3, ?_, ?_⟩
    · intro l hl ht
      exact Or.inr (by rw [hsrc3 l hl ht, hcid])
    · rw [List.length_eq_zero, List.filter_eq_nil_iff]
      intro l hl
      simp only [Bool.and_eq_true, beq_iff_eq, not_and]
      intro ht hsr
      have hpe : p = st.nodeId := by rw [← hsr, hsrc3 l hl ht, hcid]
      omega
  have hlt : st.nodeId < (attrs.foldl (processAttr (createNode st nm "element" (some p) content).1)
      (setElementMap (createNode st nm "element" (some p) content).2 nm
        (createNode st nm "element" (some p) content).1)).nodeId := by
    have g3 := hG3.1
    rw [hnid2, hnid1] at g3
    omega
  exact ⟨hI3, hN3, Grows_trans hG1 (Grows_trans hG2 hG3),
    TravLinksLo_trans hT1 (TravLinksLo_trans hT2 hT3), hlt, hcid⟩

theorem travList_ok (html : String) (B : Nat)
    (hP : ∀ m : DomNode, sizeOf m < B → TravOk html m) :
    ∀ (cs : List DomNode), sizeOf cs ≤ B → ∀ (p : Nat) (st : ParserState),
      Inv st → NoStyleUse st → p < st.nodeId →
      Inv (traverseDOMList html cs (some p) st)
      ∧ NoStyleUse (traverseDOMList html cs (some p) st)
      ∧ Grows st (traverseDOMList html cs (some p) st)
      ∧ TravLinksLo p st.nodeId (countElems cs) st (traverseDOMList html cs (some p) st) := by
  intro cs
  induction cs with
  | nil =>
    intro _ p st hI hN hp
    exact ⟨hI, hN, Grows_refl st, TravLinksLo_refl p st.nodeId st⟩
  | cons c rest ih =>
    intro hsz p st hI hN hp
    rw [traverseDOMList]
    have hc : sizeOf c < B := by
      simp only [List.cons.sizeOf_spec] at hsz
      omega
    have hrest : sizeOf rest ≤ B := by
      simp only [List.cons.sizeOf_spec] at hsz
      omega
    obtain ⟨hI1, hN1, hG1, hT1⟩ := hP c hc p st hI hN hp
    have hp1 : p < (traverseDOM html c (some p) st).nodeId := lt_of_lt_of_le hp hG1.1
    obtain ⟨hI2, hN2, hG2, hT2⟩ := ih hrest p _ hI1 hN1 hp1
    rw [countElems_cons]
    exact ⟨hI2, hN2, Grows_trans hG1 hG2,
      TravLinksLo_trans hT1 (TravLinksLo_weaken hT2 hG1.1)⟩

theorem trav_ok (html : String) : ∀ n : DomNode, TravOk html n := by
  refine sizeOf_strongInd (TravOk html) ?_
  intro n IH
  obtain ⟨nodeName, tagName, attrs, childNodes, val, sloc, lloc⟩ := n
  intro p st hI hN hp
  rw [traverseDOM.eq_def]
  dsimp only [domSkip, DomNode.nodeName]
  by_cases hs : (nodeName == "#text" || nodeName == "#comment") = true
  · rw [if_pos hs, if_pos hs]
    exact ⟨hI, hN, Grows_refl st, TravLinksLo_refl p st.nodeId st⟩
  · rw [if_neg hs, if_neg hs]
    obtain ⟨hI3, hN3, hG3, hT3, hlt3, hcid⟩ :=
      travElem_pres (jsOrElseStr tagName nodeName)
        (domContent html lloc) attrs p st hI hN hp
    have hszc : sizeOf childNodes
        ≤ sizeOf (DomNode.mk nodeName tagName attrs childNodes val sloc lloc) := by
      simp only [DomNode.mk.sizeOf_spec]
      omega
    obtain ⟨hI4, hN4, hG4, hT4⟩ :=
      travList_ok html (sizeOf (DomNode.mk nodeName tagName attrs childNodes val sloc lloc))
        (fun m hm => IH m hm) childNodes hszc
        (createNode st (jsOrElseStr tagName nodeName) "element" (some p)
          (domContent html lloc)).1
        _ hI3 hN3 (lt_of_le_of_lt (le_of_eq hcid) hlt3)
    have hT4' : TravLinksLo p st.nodeId 0 _ _ :=
      TravLinksLo_retarget hT4 (le_of_eq hcid.symm) (le_of_lt hlt3) hp
    exact ⟨hI4, hN4, Grows_trans hG3 hG4, TravLinksLo_trans hT3 hT4'⟩

/-! ### Preservation for the extraction pass -/

theorem hex_none (i : Nat) (name : String) (content : Option String) {type : String}
    (h : type = "script" ∨ type = "stylesheet" ∨ type = "external-style") :
    ((none : Option Nat) = none)
      ↔ exemptNode { id := i, name := name, type := type, content := content } = true := by
  constructor
  · intro _
    rcases h with h | h | h <;> simp [exemptNode, h]
  · intro _
    rfl

theorem parseScriptContent_pres (pJS : String → Option JSNode) (t : String) (id : Nat)
    (st : ParserState) (hI : Inv st) (hN : NoStyleUse st) (hpos : 0 < st.nodeId) :
    Inv (parseScriptContent pJS t id st) ∧ NoStyleUse (parseScriptContent pJS t id st)
    ∧ Grows st (parseScriptContent pJS t id st)
    ∧ AddedSrcLo (some id) st.nodeId st (parseScriptContent pJS t id st) := by
  simp only [parseScriptContent]
  obtain ⟨hI1, hN1, hnodes1, hlinks1, hnid1, _⟩ := setScriptContentMap_pres st id t hI hN
  have hG1 : Grows st (setScriptContentMap st id t) :=
    ⟨le_of_eq hnid1.symm, [], by simp [hnodes1]⟩
  have hA1 : AddedSrcLo (some id) st.nodeId st (setScriptContentMap st id t) :=
    ⟨[], by simp [hlinks1], by simp⟩
  cases hpj : pJS t with
  | none => exact ⟨hI1, hN1, hG1, hA1⟩
  | some ast =>
    obtain ⟨hI2, hN2, hG2, hA2⟩ := walk_ok t ast id (setScriptContentMap st id t) hI1 hN1
      (by rw [hnid1]; exact hpos)
    exact ⟨hI2, hN2, Grows_trans hG1 hG2,
      AddedSrcLo_trans hA1 (AddedSrcLo_weaken hA2 (le_of_eq hnid1.symm))⟩

/-- The state after the Script node is created (and nothing else yet). -/
theorem scriptNode_pres (src : String) (st : ParserState)
    (hI : Inv st) (hN : NoStyleUse st) :
    Inv (createNode st src "script" none).2 ∧ NoStyleUse (createNode st src "script" none).2
    ∧ Grows st (createNode st src "script" none).2
    ∧ (createNode st src "script" none).2.links = st.links
    ∧ (createNode st src "script" none).1 = st.nodeId
    ∧ (createNode st src "script" none).2.nodeId = st.nodeId + 1 := by
  have hpr := createNode_eq st src "script" none none
  obtain ⟨hI1, hN1⟩ := createNode_pres st src "script" none none hI hN
    (hex_none st.nodeId src none (Or.inl rfl))
  exact ⟨hI1, hN1, ⟨by rw [hpr]; exact Nat.le_succ st.nodeId, _, by rw [hpr]⟩,
    by rw [hpr]; simp, by rw [hpr], by rw [hpr]⟩

theorem scriptNode_base (src : String) (st : ParserState)
    (hI : Inv st) (hN : NoStyleUse st) :
    Inv (createNode st src "script" none).2 ∧ NoStyleUse (createNode st src "script" none).2
    ∧ Grows st (createNode st src "script" none).2
    ∧ AddedSrcLo none st.nodeId st (createNode st src "script" none).2 := by
  obtain ⟨hI1, hN1, hG1, hl1, _, _⟩ := scriptNode_pres src st hI hN
  exact ⟨hI1, hN1, hG1, ⟨[], by simp [hl1], by simp⟩⟩

theorem extractScript_pres (pJS : String → Option JSNode) (tagName : Option String)
    (attrs : List DomAttr) (childNodes : List DomNode) (st : ParserState)
    (hI : Inv st) (hN : NoStyleUse st) :
    Inv (extractScript pJS tagName attrs childNodes none st)
    ∧ NoStyleUse (extractScript pJS tagName attrs childNodes none st)
    ∧ Grows st (extractScript pJS tagName attrs childNodes none st)
    ∧ AddedSrcLo none st.nodeId st (extractScript pJS tagName attrs childNodes none st) := by
  simp only [extractScript]
  by_cases h : tagName = some "script"
  · rw [if_pos h]
    by_cases h2 : attrs.find? (fun a => a.name = "src") = none
    · rw [if_pos h2]
      cases hfc : firstChildValue childNodes with
      | none =>
        simp only [hfc]
        exact scriptNode_base _ st hI hN
      | some t =>
        simp only [hfc]
        by_cases h3 : t = ""
        · rw [if_pos h3]
          exact scriptNode_base _ st hI hN
        · rw [if_neg h3]
          obtain ⟨hI1, hN1, hG1, hl1, hid1, hnid1⟩ := scriptNode_pres
            (jsOrElseStr ((attrs.find? (fun a => a.name = "src")).map (fun a => a.value))
              "inline-script") st hI hN
          obtain ⟨hI2, hN2, hG2, hA2⟩ := parseScriptContent_pres pJS t _ _ hI1 hN1
            (by rw [hnid1]; omega)
          have hA2' : AddedSrcLo none st.nodeId _ _ :=
            AddedSrcLo_of_some (AddedSrcLo_weaken hA2 (by rw [hnid1]; omega))
              (le_of_eq hid1.symm)
          exact ⟨hI2, hN2, Grows_trans hG1 hG2,
            AddedSrcLo_trans ⟨[], by simp [hl1], by simp⟩ hA2'⟩
    · rw [if_neg h2]
      exact scriptNode_base _ st hI hN
  · rw [if_neg h]
    exact ⟨hI, hN, Grows_refl st, AddedSrcLo_refl none st.nodeId st⟩

theorem extractLinkTag_pres (tagName : Option String) (attrs : List DomAttr)
    (st : ParserState) (hI : Inv st) (hN : NoStyleUse st) :
    Inv (extractLinkTag tagName attrs none st)
    ∧ NoStyleUse (extractLinkTag tagName attrs none st)
    ∧ Grows st (extractLinkTag tagName attrs none st)
    ∧ AddedSrcLo none st.nodeId st (extractLinkTag tagName attrs none st) := by
  simp only [extractLinkTag]
  by_cases h : tagName = some "link"
  · rw [if_pos h]
    by_cases hb : (attrs.any (fun a => a.name = "rel" && a.value = "stylesheet")) = true
    · rw [if_pos hb]
      have hpr := createNode_eq st
        (jsOrElseStr ((attrs.find? (fun a => a.name = "href")).map (fun a => a.value))
          "external-style") "external-style" none none
      obtain ⟨hI1, hN1⟩ := createNode_pres st
        (jsOrElseStr ((attrs.find? (fun a => a.name = "href")).map (fun a => a.value))
          "external-style") "external-style" none none hI hN
        (hex_none st.nodeId _ none (Or.inr (Or.inr rfl)))
      obtain ⟨hI2, hN2, hnodes2, hlinks2, hnid2⟩ := setStyleMap_pres _
        (jsOrElseStr ((attrs.find? (fun a => a.name = "href")).map (fun a => a.value))
          "external-style")
        { id := (createNode st
            (jsOrElseStr ((attrs.find? (fun a => a.name = "href")).map (fun a => a.value))
              "external-style") "external-style" none none).1, css := none }
        hI1 hN1 (Or.inr rfl)
      refine ⟨hI2, hN2, ⟨?_, _, by rw [hnodes2, hpr]⟩, ⟨[], ?_, by simp⟩⟩
      · rw [hnid2, hpr]
        exact Nat.le_succ st.nodeId
      · rw [hlinks2, hpr]
    · rw [if_neg hb]
      exact ⟨hI, hN, Grows_refl st, AddedSrcLo_refl none st.nodeId st⟩
  · rw [if_neg h]
    exact ⟨hI, hN, Grows_refl st, AddedSrcLo_refl none st.nodeId st⟩

theorem extractStyleTag_pres (pCSS : String → Option CSSParsed) (tagName : Option String)
    (childNodes : List DomNode) (st : ParserState) (hI : Inv st) (hN : NoStyleUse st) :
    Inv (extractStyleTag pCSS tagName childNodes none st)
    ∧ NoStyleUse (extractStyleTag pCSS tagName childNodes none st)
    ∧ Grows st (extractStyleTag pCSS tagName childNodes none st)
    ∧ AddedSrcLo none st.nodeId st (extractStyleTag pCSS tagName childNodes none st) := by
  simp only [extractStyleTag]
  by_cases h : tagName = some "style"
  · rw [if_pos h]
    have hpr := createNode_eq st "inline-stylesheet" "stylesheet" none
      (some (jsOrElseStr (firstChildValue childNodes) ""))
    obtain ⟨hI1, hN1⟩ := createNode_pres st "inline-stylesheet" "stylesheet" none
      (some (jsOrElseStr (firstChildValue childNodes) "")) hI hN
      (hex_none st.nodeId _ _ (Or.inr (Or.inl rfl)))
    have hG1 : Grows st (createNode st "inline-stylesheet" "stylesheet" none
        (some (jsOrElseStr (firstChildValue childNodes) ""))).2 :=
      ⟨by rw [hpr]; exact Nat.le_succ st.nodeId, _, by rw [hpr]⟩
    have hA1 : AddedSrcLo none st.nodeId st (createNode st "inline-stylesheet" "stylesheet" none
        (some (jsOrElseStr (firstChildValue childNodes) ""))).2 :=
      ⟨[], by rw [hpr], by simp⟩
    cases hpc : pCSS (jsOrElseStr (firstChildValue childNodes) "") with
    | none =>
      simp only [hpc]
      exact ⟨hI1, hN1, hG1, hA1⟩
    | some parsed =>
      simp only [hpc]
      obtain ⟨hI2, hN2, hnodes2, hlinks2, hnid2⟩ := setStyleMap_pres _ "inline-stylesheet"
        { id := (createNode st "inline-stylesheet" "stylesheet" none
            (some (jsOrElseStr (firstChildValue childNodes) ""))).1, css := some parsed }
        hI1 hN1 (Or.inl rfl)
      refine ⟨hI2, hN2, ⟨?_, _, by rw [hnodes2, hpr]⟩, ⟨[], ?_, by simp⟩⟩
      · rw [hnid2, hpr]
        exact Nat.le_succ st.nodeId
      · rw [hlinks2, hpr]
  · rw [if_neg h]
    exact ⟨hI, hN, Grows_refl st, AddedSrcLo_refl none st.nodeId st⟩

theorem extractList_ok (pJS : String → Option JSNode) (pCSS : String → Option CSSParsed)
    (B : Nat) (hP : ∀ m : DomNode, sizeOf m < B → ExtractOk pJS pCSS m) :
    ∀ (cs : List DomNode), sizeOf cs ≤ B → ∀ (st : ParserState),
      Inv st → NoStyleUse st →
      Inv (extractList pJS pCSS cs none st) ∧ NoStyleUse (extractList pJS pCSS cs none st)
      ∧ Grows st (extractList pJS pCSS cs none st)
      ∧ AddedSrcLo none st.nodeId st (extractList pJS pCSS cs none st) := by
  intro cs
  induction cs with
  | nil =>
    intro _ st hI hN
    exact ⟨hI, hN, Grows_refl st, AddedSrcLo_refl none st.nodeId st⟩
  | cons c rest ih =>
    intro hsz st hI hN
    rw [extractList]
    have hc : sizeOf c < B := by
      simp only [List.cons.sizeOf_spec] at hsz
      omega
    have hrest : sizeOf rest ≤ B := by
      simp only [List.cons.sizeOf_spec] at hsz
      omega
    obtain ⟨hI1, hN1, hG1, hA1⟩ := hP c hc st hI hN
    obtain ⟨hI2, hN2, hG2, hA2⟩ := ih hrest _ hI1 hN1
    exact ⟨hI2, hN2, Grows_trans hG1 hG2,
      AddedSrcLo_trans hA1 (AddedSrcLo_weaken hA2 hG1.1)⟩

theorem extract_ok (pJS : String → Option JSNode) (pCSS : String → Option CSSParsed) :
    ∀ n : DomNode, ExtractOk pJS pCSS n := by
  refine sizeOf_strongInd (ExtractOk pJS pCSS) ?_
  intro n IH
  obtain ⟨nodeName, tagName, attrs, childNodes, val, sloc, lloc⟩ := n
  intro st hI hN
  obtain ⟨hI1, hN1, hG1, hA1⟩ := extractScript_pres pJS tagName attrs childNodes st hI hN
  obtain ⟨hI2, hN2, hG2, hA2⟩ := extractLinkTag_pres tagName attrs _ hI1 hN1
  obtain ⟨hI3, hN3, hG3, hA3⟩ := extractStyleTag_pres pCSS tagName childNodes _ hI2 hN2
  have hszc : sizeOf childNodes
      ≤ sizeOf (DomNode.mk nodeName tagName attrs childNodes val sloc lloc) := by
    simp only [DomNode.mk.sizeOf_spec]
    omega
  obtain ⟨hI4, hN4, hG4, hA4⟩ :=
    extractList_ok pJS pCSS (sizeOf (DomNode.mk nodeName tagName attrs childNodes val sloc lloc))
      (fun m hm => IH m hm) childNodes hszc _ hI3 hN3
  exact ⟨hI4, hN4, Grows_trans hG1 (Grows_trans hG2 (Grows_trans hG3 hG4)),
    AddedSrcLo_trans hA1 (AddedSrcLo_trans (AddedSrcLo_weaken hA2 hG1.1)
      (AddedSrcLo_trans (AddedSrcLo_weaken hA3 (le_trans hG1.1 hG2.1))
        (AddedSrcLo_weaken hA4 (le_trans hG1.1 (le_trans hG2.1 hG3.1)))))⟩

/-! ### The root traversal call (null parent) -/

theorem TravLinksLo_retarget_eq {p p' lo lo' k : Nat} {a b : ParserState}
    (h : TravLinksLo p lo k a b) (hp : p = p') (hlo : lo' ≤ lo) :
    TravLinksLo p' lo' k a b := by
  obtain ⟨A, hA, hs, hc⟩ := h
  refine ⟨A, hA, ?_, ?_⟩
  · intro l hl ht
    rcases hs l hl ht with h' | h'
    · exact Or.inl (hp ▸ h')
    · exact Or.inr (le_trans hlo h')
  · rw [← hp]
    exact hc

theorem initState_inv : Inv initState ∧ NoStyleUse initState := by
  refine ⟨⟨rfl, ?_, ?_, ?_, ?_, ?_, ?_⟩, ?_⟩
  · intro l hl
    simp [initState] at hl
  · simp [structuralTargets, initState]
  · intro n hn
    simp [initState] at hn
  · intro l hl
    simp [initState] at hl
  · intro e he
    simp [initState] at he
  · simp [initState]
  · intro l hl
    simp [initState] at hl

/-- The element part of the root `traverseDOM` call: null parent at a
zero counter, so the created node is the exempt id-0 root. -/
theorem travRootElem_pres (nm : String) (content : Option String) (attrs : List DomAttr)
    (st : ParserState) (hI : Inv st) (hN : NoStyleUse st) (h0 : st.nodeId = 0) :
    Inv (attrs.foldl (processAttr (createNode st nm "element" none content).1)
        (setElementMap (createNode st nm "element" none content).2 nm
          (createNode st nm "element" none content).1))
    ∧ NoStyleUse (attrs.foldl (processAttr (createNode st nm "element" none content).1)
        (setElementMap (createNode st nm "element" none content).2 nm
          (createNode st nm "element" none content).1))
    ∧ Grows st (attrs.foldl (processAttr (createNode st nm "element" none content).1)
        (setElementMap (createNode st nm "element" none content).2 nm
          (createNode st nm "element" none content).1))
    ∧ st.nodeId < (attrs.foldl (processAttr (createNode st nm "element" none content).1)
        (setElementMap (createNode st nm "element" none content).2 nm
          (createNode st nm "element" none content).1)).nodeId
    ∧ (createNode st nm "element" none content).1 = st.nodeId := by
  have hex0 : ((none : Option Nat) = none)
      ↔ exemptNode { id := st.nodeId, name := nm, type := "element", content := content } = true := by
    constructor
    · intro _
      simp [exemptNode, h0]
    · intro _
      rfl
  have hpr := createNode_eq st nm "element" none content
  obtain ⟨hI1, hN1⟩ := createNode_pres st nm "element" none content hI hN hex0
  have hcid : (createNode st nm "element" none content).1 = st.nodeId := by rw [hpr]
  have hnid1 : (createNode st nm "element" none content).2.nodeId = st.nodeId + 1 := by
    rw [hpr]
  have hG1 : Grows st (createNode st nm "element" none content).2 :=
    ⟨by rw [hnid1]; omega, _, by rw [hpr]⟩
  obtain ⟨hI2, hN2, hnodes2, hlinks2, hnid2, _, _⟩ :=
    setElementMap_pres (createNode st nm "element" none content).2 nm
      (createNode st nm "element" none content).1 hI1 hN1
  have hG2 : Grows (createNode st nm "element" none content).2
      (setElementMap (createNode st nm "element" none content).2 nm
        (createNode st nm "element" none content).1) :=
    ⟨le_of_eq hnid2.symm, [], by simp [hnodes2]⟩
  obtain ⟨⟨hI3, hN3, hpos3⟩, hG3⟩ :=
    foldl_pres (processAttr (createNode st nm "element" none content).1) attrs
      (fun s => Inv s ∧ NoStyleUse s ∧ 0 < s.nodeId) Grows
      Grows_refl
      (fun a b c _ r1 r2 => Grows_trans r1 r2)
      (fun x _ s hsP => by
        obtain ⟨hsI, hsN, hsp⟩ := hsP
        obtain ⟨aI, aN, aG, ap, _⟩ :=
          processAttr_pres (createNode st nm "element" none content).1 s x hsI hsN hsp
        exact ⟨⟨aI, aN, ap⟩, aG⟩)
      (setElementMap (createNode st nm "element" none content).2 nm
        (createNode st nm "element" none content).1)
      ⟨hI2, hN2, by rw [hnid2, hnid1]; omega⟩
  have hlt : st.nodeId < (attrs.foldl (processAttr (createNode st nm "element" none content).1)
      (setElementMap (createNode st nm "element" none content).2 nm
        (createNode st nm "element" none content).1)).nodeId := by
    have g3 := hG3.1
    rw [hnid2, hnid1] at g3
    omega
  exact ⟨hI3, hN3, Grows_trans hG1 (Grows_trans hG2 hG3), hlt, hcid⟩

/-- Invariant preservation through the root traversal call. -/
theorem trav_none_inv (html : String) (n : DomNode) (st : ParserState)
    (hI : Inv st) (hN : NoStyleUse st) (h0 : st.nodeId = 0) :
    Inv (traverseDOM html n none st) ∧ NoStyleUse (traverseDOM html n none st)
    ∧ Grows st (traverseDOM html n none st) := by
  obtain ⟨nodeName, tagName, attrs, childNodes, val, sloc, lloc⟩ := n
  rw [traverseDOM.eq_def]
  dsimp only [domSkip, DomNode.nodeName]
  by_cases hs : (nodeName == "#text" || nodeName == "#comment") = true
  · rw [if_pos hs]
    exact ⟨hI, hN, Grows_refl st⟩
  · rw [if_neg hs]
    obtain ⟨hI3, hN3, hG3, hlt3, hcid⟩ := travRootElem_pres (jsOrElseStr tagName nodeName)
      (domContent html lloc) attrs st hI hN h0
    obtain ⟨hI4, hN4, hG4, _⟩ :=
      travList_ok html (sizeOf childNodes) (fun m _ => trav_ok html m) childNodes le_rfl
        (createNode st (jsOrElseStr tagName nodeName) "element" none
          (domContent html lloc)).1
        _ hI3 hN3 (lt_of_le_of_lt (le_of_eq hcid) hlt3)
    exact ⟨hI4, hN4, Grows_trans hG3 hG4⟩

/-- The root traversal call on a non-skipped attribute-free node: the
root comes first in the appended nodes with the zero id, and exactly
`countElems childNodes` structural edges with source `0` are added. -/
theorem trav_root_ok (html : String) (nodeName : String) (tagName : Option String)
    (childNodes : List DomNode) (val : Option String) (sloc lloc : Option Span)
    (st : ParserState) (hI : Inv st) (hN : NoStyleUse st) (h0 : st.nodeId = 0)
    (hs : (nodeName == "#text" || nodeName == "#comment") = false) :
    Inv (traverseDOM html (DomNode.mk nodeName tagName [] childNodes val sloc lloc) none st)
    ∧ NoStyleUse (traverseDOM html (DomNode.mk nodeName tagName [] childNodes val sloc lloc) none st)
    ∧ Grows st (traverseDOM html (DomNode.mk nodeName tagName [] childNodes val sloc lloc) none st)
    ∧ (∃ Ns, (traverseDOM html (DomNode.mk nodeName tagName [] childNodes val sloc lloc) none st).nodes
        = st.nodes ++ gnode st.nodeId (jsOrElseStr tagName nodeName) "element" (domContent html lloc) :: Ns)
    ∧ TravLinksLo 0 0 (countElems childNodes) st
        (traverseDOM html (DomNode.mk nodeName tagName [] childNodes val sloc lloc) none st)
    ∧ 0 < (traverseDOM html (DomNode.mk nodeName tagName [] childNodes val sloc lloc) none st).nodeId := by
  rw [traverseDOM.eq_def]
  dsimp only [domSkip, DomNode.nodeName]
  rw [if_neg (by simp [hs])]
  have hex0 : ((none : Option Nat) = none)
      ↔ exemptNode (gnode st.nodeId (jsOrElseStr tagName nodeName) "element"
          (domContent html lloc)) = true := by
    constructor
    · intro _
      simp [exemptNode, gnode, h0]
    · intro _
      rfl
  have hpr := createNode_eq st (jsOrElseStr tagName nodeName) "element" none
    (domContent html lloc)
  obtain ⟨hI1, hN1⟩ := createNode_pres st (jsOrElseStr tagName nodeName) "element" none
    (domContent html lloc) hI hN hex0
  have hcid : (createNode st (jsOrElseStr tagName nodeName) "element" none
      (domContent html lloc)).1 = st.nodeId := by rw [hpr]
  have hnid1 : (createNode st (jsOrElseStr tagName nodeName) "element" none
      (domContent html lloc)).2.nodeId = st.nodeId + 1 := by rw [hpr]
  have hG1 : Grows st (createNode st (jsOrElseStr tagName nodeName) "element" none
      (domContent html lloc)).2 :=
    ⟨by rw [hnid1]; omega, _, by rw [hpr]⟩
  obtain ⟨hI2, hN2, hnodes2, hlinks2, hnid2, _, _⟩ :=
    setElementMap_pres (createNode st (jsOrElseStr tagName nodeName) "element" none
        (domContent html lloc)).2 (jsOrElseStr tagName nodeName)
      (createNode st (jsOrElseStr tagName nodeName) "element" none
        (domContent html lloc)).1 hI1 hN1
  have hG2 : Grows (createNode st (jsOrElseStr tagName nodeName) "element" none
      (domContent html lloc)).2
      (setElementMap (createNode st (jsOrElseStr tagName nodeName) "element" none
          (domContent html lloc)).2 (jsOrElseStr tagName nodeName)
        (createNode st (jsOrElseStr tagName nodeName) "element" none
          (domContent html lloc)).1) :=
    ⟨le_of_eq hnid2.symm, [], by simp [hnodes2]⟩
  have pieceA : TravLinksLo 0 0 0 st
      (setElementMap (createNode st (jsOrElseStr tagName nodeName) "element" none
          (domContent html lloc)).2 (jsOrElseStr tagName nodeName)
        (createNode st (jsOrElseStr tagName nodeName) "element" none
          (domContent html lloc)).1) :=
    ⟨[], by rw [hlinks2, hpr], by simp, by simp⟩
  have hplt : (createNode st (jsOrElseStr tagName nodeName) "element" none
      (domContent html lloc)).1
      < (setElementMap (createNode st (jsOrElseStr tagName nodeName) "element" none
          (domContent html lloc)).2 (jsOrElseStr tagName nodeName)
        (createNode st (jsOrElseStr tagName nodeName) "element" none
          (domContent html lloc)).1).nodeId := by
    refine lt_of_le_of_lt (le_of_eq hcid) ?_
    rw [hnid2, hnid1]
    omega
  obtain ⟨hI4, hN4, hG4, hT4⟩ :=
    travList_ok html (sizeOf childNodes) (fun m _ => trav_ok html m) childNodes le_rfl
      (createNode st (jsOrElseStr tagName nodeName) "element" none
        (domContent html lloc)).1
      _ hI2 hN2 hplt
  have hT4' := TravLinksLo_retarget_eq hT4 (by rw [hcid, h0]) (Nat.zero_le _)
  have htot := TravLinksLo_trans pieceA hT4'
  rw [Nat.zero_add] at htot
  obtain ⟨A4, hA4⟩ := hG4.2
  have hpos4 : 0 < (traverseDOMList html childNodes
      (some (createNode st (jsOrElseStr tagName nodeName) "element" none
        (domContent html lloc)).1)
      (setElementMap (createNode st (jsOrElseStr tagName nodeName) "element" none
          (domContent html lloc)).2 (jsOrElseStr tagName nodeName)
        (createNode st (jsOrElseStr tagName nodeName) "element" none
          (domContent html lloc)).1)).nodeId := by
    have g4 := hG4.1
    rw [hnid2, hnid1] at g4
    omega
  refine ⟨hI4, hN4, Grows_trans hG1 (Grows_trans hG2 hG4), ⟨A4, ?_⟩, htot, hpos4⟩
  show (traverseDOMList html childNodes
      (some (createNode st (jsOrElseStr tagName nodeName) "element" none
        (domContent html lloc)).1)
      (setElementMap (createNode st (jsOrElseStr tagName nodeName) "element" none
          (domContent html lloc)).2 (jsOrElseStr tagName nodeName)
        (createNode st (jsOrElseStr tagName nodeName) "element" none
          (domContent html lloc)).1)).nodes = _
  rw [hA4, hnodes2, hpr]
  simp [gnode]

/-! ### Preservation for the style-resolution pass -/

theorem StyleStep_refl (s : ParserState) : StyleStep s s :=
  ⟨rfl, rfl, rfl, [], by simp, by simp⟩

theorem StyleStep_trans {a b c : ParserState} (h1 : StyleStep a b) (h2 : StyleStep b c) :
    StyleStep a c := by
  obtain ⟨n1, i1, m1, A1, l1, t1⟩ := h1
  obtain ⟨n2, i2, m2, A2, l2, t2⟩ := h2
  refine ⟨n2.trans n1, i2.trans i1, m2.trans m1, A1 ++ A2,
    by rw [l2, l1, List.append_assoc], ?_⟩
  intro l hl
  rcases List.mem_append.mp hl with h | h
  · exact t1 l h
  · exact t2 l h

theorem linkCandidates_pres (styleId : Nat) (sel : String) (parts : List String)
    (cands : List Nat) (st : ParserState) (hI : Inv st) :
    Inv (linkCandidates styleId sel parts cands st)
    ∧ StyleStep st (linkCandidates styleId sel parts cands st) := by
  rw [linkCandidates]
  refine foldl_pres _ cands Inv StyleStep StyleStep_refl
    (fun a b c _ r1 r2 => StyleStep_trans r1 r2) ?_ st hI
  intro x _ s hs
  by_cases hm : matchesSelectorPath s x parts = true
  · rw [if_pos hm]
    obtain ⟨hI1, hlinks1, hnodes1, hnid1, hsm1, _, _⟩ :=
      createLink_pres s styleId x "stylesheet-use" (some ("Applies " ++ sel)) hs (by decide)
    refine ⟨hI1, hnodes1, hnid1, hsm1,
      [{ source := styleId, target := x, type := "stylesheet-use",
         label := normLabel (some ("Applies " ++ sel)), visible := some true }], hlinks1, ?_⟩
    intro l hl
    simp only [List.mem_singleton] at hl
    subst hl
    rfl
  · rw [if_neg hm]
    exact ⟨hs, StyleStep_refl s⟩

theorem processSelector_pres (styleId : Nat) (st : ParserState) (sel0 : String)
    (hI : Inv st) :
    Inv (processSelector styleId st sel0) ∧ StyleStep st (processSelector styleId st sel0) := by
  simp only [processSelector]
  cases hg : (wsSplit (stripPseudo (jsTrim sel0))).getLast? with
  | none =>
    exact ⟨hI, StyleStep_refl st⟩
  | some lastPart =>
    exact linkCandidates_pres styleId (stripPseudo (jsTrim sel0))
      (wsSplit (stripPseudo (jsTrim sel0))) (matchSelectorPart st lastPart) st hI

theorem processRule_pres (styleId : Nat) (st : ParserState) (rule : CSSRule)
    (hI : Inv st) :
    Inv (processRule styleId st rule) ∧ StyleStep st (processRule styleId st rule) := by
  rw [processRule]
  by_cases h : rule.type ≠ "rule"
  · rw [if_pos h]
    exact ⟨hI, StyleStep_refl st⟩
  · rw [if_neg h]
    cases hsel : rule.selectors with
    | none => exact ⟨hI, StyleStep_refl st⟩
    | some sels =>
      exact foldl_pres (processSelector styleId) sels Inv StyleStep StyleStep_refl
        (fun a b c _ r1 r2 => StyleStep_trans r1 r2)
        (fun x _ s hs => processSelector_pres styleId s x hs) st hI

theorem linkStyles_pres (st : ParserState) (hI : Inv st) :
    Inv (linkStylesToElements st) ∧ StyleStep st (linkStylesToElements st) := by
  rw [linkStylesToElements]
  refine foldl_pres _ st.styleMap Inv StyleStep StyleStep_refl
    (fun a b c _ r1 r2 => StyleStep_trans r1 r2) ?_ st hI
  intro x _ s hs
  cases hcss : x.2.css with
  | none =>
    simp only [hcss]
    exact ⟨hs, StyleStep_refl s⟩
  | some css =>
    simp only [hcss]
    cases hsheet : css.stylesheet with
    | none => exact ⟨hs, StyleStep_refl s⟩
    | some sheet =>
      exact foldl_pres (processRule x.2.id) (sheet.rules.getD []) Inv StyleStep StyleStep_refl
        (fun a b c _ r1 r2 => StyleStep_trans r1 r2)
        (fun y _ s2 hs2 => processRule_pres x.2.id s2 y hs2) s hs

/-! ### The whole pipeline preserves the invariant -/

theorem runAnalysis_inv (html : String) (pJS : String → Option JSNode)
    (pCSS : String → Option CSSParsed) (doc : DomNode) :
    Inv (runAnalysis html pJS pCSS doc) := by
  obtain ⟨hI0, hN0⟩ := initState_inv
  obtain ⟨hI1, hN1, hG1⟩ := trav_none_inv html doc initState hI0 hN0 rfl
  obtain ⟨hI2, hN2, hG2, hA2⟩ := extract_ok pJS pCSS doc _ hI1 hN1
  exact (linkStyles_pres _ hI2).1

/-- The invariant pins down the structural in-degree of every node:
zero for the exempt ones, one for the rest. -/
theorem inv_target_count (st : ParserState) (hI : Inv st) (n : GNode) (hn : n ∈ st.nodes) :
    (st.links.filter (fun l => l.type == "structural" && l.target == n.id)).length
      = if exemptNode n then 0 else 1 := by
  have hmem := hI.parentChar n hn
  have hnd := hI.targetsNodup
  have hconv : (st.links.filter (fun l => l.type == "structural" && l.target == n.id)).length
      = (structuralTargets st).count n.id := by
    rw [structuralTargets, List.count_eq_countP, List.countP_map,
      List.countP_eq_length_filter, List.filter_filter]
    refine congrArg List.length (List.filter_congr ?_)
    intro a _
    simp only [Function.comp]
    exact Bool.and_comm _ _
  by_cases hex : exemptNode n = true
  · have hnotin : n.id ∉ structuralTargets st := by
      intro hmem'
      have hf := hmem.mp hmem'
      rw [hex] at hf
      cases hf
    rw [hconv, List.count_eq_zero.mpr hnotin, if_pos hex]
  · have hf : exemptNode n = false := by
      revert hex
      cases exemptNode n <;> simp
    have hin : n.id ∈ structuralTargets st := hmem.mpr hf
    have hle := List.nodup_iff_count_le_one.mp hnd n.id
    have hge : 0 < (structuralTargets st).count n.id := List.count_pos_iff.mpr hin
    rw [hconv, if_neg hex]
    omega

/-! ### Claims C2 (amended), C3, C8 (amended) — run-level invariant facts -/

/-- Claim C2, amended.  Single-parent containment holds for the nodes
the *traversal* creates, but not for every non-root node: after a
complete run, a node has exactly one incoming `structural` edge unless
it is exempt — the id-0 root or a node the extraction pass creates
(script, stylesheet, external-style), which has none. -/
theorem claim2_amended (html : String) (pJS : String → Option JSNode)
    (pCSS : String → Option CSSParsed) (doc : DomNode) :
    ∀ n ∈ (runAnalysis html pJS pCSS doc).nodes,
      ((runAnalysis html pJS pCSS doc).links.filter
          (fun l => l.type == "structural" && l.target == n.id)).length
        = if exemptNode n then 0 else 1 :=
  fun n hn => inv_target_count _ (runAnalysis_inv html pJS pCSS doc) n hn

set_option maxHeartbeats 1600000 in
theorem claim2_amended_witness :
    ((runAnalysis "" pJSnone pCSSnone docSingleDiv).links.filter
        (fun l => l.type == "structural" && l.target == (gnode 1 "div" "element" none).id)).length
      = if exemptNode (gnode 1 "div" "element" none) then 0 else 1 :=
  claim2_amended "" pJSnone pCSSnone docSingleDiv (gnode 1 "div" "element" none) (by decide)

/-- Claim C3.  Id density: for every input, the ids of the produced
nodes are exactly `0, …, N-1` in order, where `N` is the number of
nodes — one shared monotonic counter, no reuse. -/
theorem claim3_id_density (html : String) (pJS : String → Option JSNode)
    (pCSS : String → Option CSSParsed) (doc : DomNode) :
    (runAnalysis html pJS pCSS doc).nodes.map GNode.id
      = List.range (runAnalysis html pJS pCSS doc).nodes.length := by
  have h := (runAnalysis_inv html pJS pCSS doc).ids
  have hlen : (runAnalysis html pJS pCSS doc).nodes.length
      = (runAnalysis html pJS pCSS doc).nodeId := by
    have h2 := congrArg List.length h
    rwa [List.length_map, List.length_range] at h2
  rw [hlen]
  exact h

/-- Claim C8, amended.  Only the edges pushed by createLink carry
`visible: true`; the structural edges pushed by createNode carry no
`visible` (and no `label`) property at all. -/
theorem claim8_amended (html : String) (pJS : String → Option JSNode)
    (pCSS : String → Option CSSParsed) (doc : DomNode) :
    ∀ l ∈ (runAnalysis html pJS pCSS doc).links,
      (l.type = "structural" → l.visible = none)
      ∧ (l.type ≠ "structural" → l.visible = some true) := by
  intro l hl
  have h := (runAnalysis_inv html pJS pCSS doc).visOk l hl
  exact ⟨fun ht => (h.1 ht).1, h.2⟩

set_option maxHeartbeats 1600000 in
theorem claim8_amended_witness :
    ((structuralLink 0 1).type = "structural" → (structuralLink 0 1).visible = none)
    ∧ ((structuralLink 0 1).type ≠ "structural" → (structuralLink 0 1).visible = some true) :=
  claim8_amended "" pJSnone pCSSnone docSingleDiv (structuralLink 0 1) (by decide)

/-! ### Claim C5 — a script that fails to parse -/

/-- Claim C5.  Script failure tier: an inline script element whose text
the js front-end rejects still yields the Script node and the raw-text
record, nothing else — no Function/Variable/DomChange node — and the
pass carries on into the children from exactly that state. -/
theorem claim5_script_failure (pJS : String → Option JSNode)
    (pCSS : String → Option CSSParsed) (nodeName : String) (attrs : List DomAttr)
    (childNodes : List DomNode) (val : Option String) (sloc lloc : Option Span)
    (t : String) (pid : Option Nat) (st : ParserState)
    (hpj : pJS t = none)
    (hsrc : attrs.find? (fun a => a.name = "src") = none)
    (hfc : firstChildValue childNodes = some t)
    (ht : ¬ t = "") :
    extractScriptsAndStyles pJS pCSS
        (DomNode.mk nodeName (some "script") attrs childNodes val sloc lloc) pid st
      = extractList pJS pCSS childNodes pid
          (setScriptContentMap (createNode st "inline-script" "script" pid).2
            (createNode st "inline-script" "script" pid).1 t)
    ∧ (setScriptContentMap (createNode st "inline-script" "script" pid).2
          (createNode st "inline-script" "script" pid).1 t).nodes
      = st.nodes ++ [gnode st.nodeId "inline-script" "script" none] := by
  constructor
  · have hscript : extractScript pJS (some "script") attrs childNodes pid st
        = setScriptContentMap (createNode st "inline-script" "script" pid).2
            (createNode st "inline-script" "script" pid).1 t := by
      simp only [extractScript, hsrc]
      simp only [if_true]
      simp only [hfc, Option.map_none, jsOrElseStr]
      rw [if_neg ht]
      simp only [parseScriptContent, hpj]
      rfl
    have hlink : extractLinkTag (some "script") attrs pid
        (setScriptContentMap (createNode st "inline-script" "script" pid).2
          (createNode st "inline-script" "script" pid).1 t)
        = setScriptContentMap (createNode st "inline-script" "script" pid).2
            (createNode st "inline-script" "script" pid).1 t := by
      simp only [extractLinkTag]
      rw [if_neg (by simp)]
    have hstyle : extractStyleTag pCSS (some "script") childNodes pid
        (setScriptContentMap (createNode st "inline-script" "script" pid).2
          (createNode st "inline-script" "script" pid).1 t)
        = setScriptContentMap (createNode st "inline-script" "script" pid).2
            (createNode st "inline-script" "script" pid).1 t := by
      simp only [extractStyleTag]
      rw [if_neg (by simp)]
    show extractList pJS pCSS childNodes pid
        (extractStyleTag pCSS (some "script") childNodes pid
          (extractLinkTag (some "script") attrs pid
            (extractScript pJS (some "script") attrs childNodes pid st))) = _
    rw [hscript, hlink, hstyle]
  · rw [setScriptContentMap_eq, createNode_eq]
    simp [gnode]

set_option maxHeartbeats 1600000 in
theorem claim5_witness :
    (extractScriptsAndStyles pJSnone pCSSnone
        (DomNode.mk "script" (some "script") [] [textN "zzz"] none none none) none initState
      = extractList pJSnone pCSSnone [textN "zzz"] none
          (setScriptContentMap (createNode initState "inline-script" "script" none).2
            (createNode initState "inline-script" "script" none).1 "zzz"))
    ∧ (setScriptContentMap (createNode initState "inline-script" "script" none).2
          (createNode initState "inline-script" "script" none).1 "zzz").nodes
      = initState.nodes ++ [gnode initState.nodeId "inline-script" "script" none] :=
  claim5_script_failure pJSnone pCSSnone "script" [] [textN "zzz"] none none none
    "zzz" none initState rfl rfl rfl (by decide)

/-! ### Claim C9 — the single constant style-map key -/

set_option maxHeartbeats 1600000 in
/-- Claim C9.  With two inline stylesheets that both parse (`.x` over a
div, then `.y` over a span), both stylesheet nodes exist, yet only the
*last* one produces a `stylesheet-use` edge; nothing links out of the
first (node 8), because the style map holds a single `inline-stylesheet`
entry, overwritten to point at node 9. -/
theorem claim9_last_sheet_wins :
    ((runAnalysis "" pJSnone pCSS9 docTwoStyles).nodes.filter (fun n => n.type == "stylesheet")
      = [gnode 8 "inline-stylesheet" "stylesheet" (some cssA),
         gnode 9 "inline-stylesheet" "stylesheet" (some cssB)])
    ∧ ((runAnalysis "" pJSnone pCSS9 docTwoStyles).links.filter (fun l => l.type == "stylesheet-use")
      = [glink 9 7 "stylesheet-use" (some "Applies .y")])
    ∧ ((runAnalysis "" pJSnone pCSS9 docTwoStyles).links.filter (fun l => l.source == 8)).length = 0
    ∧ ((runAnalysis "" pJSnone pCSS9 docTwoStyles).styleMap.map (fun e => (e.1, e.2.id))
      = [("inline-stylesheet", 9)]) := by
  refine ⟨by decide, by decide, by decide, by decide⟩

/-! ### Claim C10 — the materialized document root -/

/-- Claim C10.  For every parse5 document (`#document` root: that node
name, no tag name, no attributes), the first created node is id 0,
named `#document`, of kind `element`; no structural edge points at it,
and the top-level elements hang under it: the run produces exactly
`countElems childNodes` structural edges with source 0. -/
theorem claim10_document_root (html : String) (pJS : String → Option JSNode)
    (pCSS : String → Option CSSParsed) (childNodes : List DomNode)
    (val : Option String) (sloc lloc : Option Span) :
    (runAnalysis html pJS pCSS (DomNode.mk "#document" none [] childNodes val sloc lloc)).nodes.head?
      = some (gnode 0 "#document" "element" (domContent html lloc))
    ∧ (∀ l ∈ (runAnalysis html pJS pCSS (DomNode.mk "#document" none [] childNodes val sloc lloc)).links,
        l.type = "structural" → l.target ≠ 0)
    ∧ ((runAnalysis html pJS pCSS (DomNode.mk "#document" none [] childNodes val sloc lloc)).links.filter
          (fun l => l.type == "structural" && l.source == 0)).length
      = countElems childNodes := by
  obtain ⟨hI0, hN0⟩ := initState_inv
  obtain ⟨hI1, hN1, hG1, hNs, hT, hpos1⟩ := trav_root_ok html "#document" none childNodes
    val sloc lloc initState hI0 hN0 rfl (by decide)
  obtain ⟨hI2, hN2, hG2, hA2⟩ := extract_ok pJS pCSS
    (DomNode.mk "#document" none [] childNodes val sloc lloc) _ hI1 hN1
  obtain ⟨hI3, hSS⟩ := linkStyles_pres _ hI2
  obtain ⟨hnodes3, hnid3, hsm3, A3, hlinks3, hty3⟩ := hSS
  obtain ⟨A2l, hA2l, hsrc2⟩ := hA2
  obtain ⟨A1, hA1, hsrc1, hc1⟩ := hT
  obtain ⟨Ns, hNs'⟩ := hNs
  obtain ⟨B2, hB2⟩ := hG2.2
  have hgmem : gnode 0 "#document" "element" (domContent html lloc)
      ∈ (runAnalysis html pJS pCSS (DomNode.mk "#document" none [] childNodes val sloc lloc)).nodes := by
    show gnode 0 "#document" "element" (domContent html lloc)
        ∈ (linkStylesToElements (extractScriptsAndStyles pJS pCSS
            (DomNode.mk "#document" none [] childNodes val sloc lloc) none
            (traverseDOM html (DomNode.mk "#document" none [] childNodes val sloc lloc)
              none initState))).nodes
    rw [hnodes3, hB2, hNs']
    simp [initState, gnode, jsOrElseStr]
  refine ⟨?_, ?_, ?_⟩
  · show (linkStylesToElements (extractScriptsAndStyles pJS pCSS
        (DomNode.mk "#document" none [] childNodes val sloc lloc) none
        (traverseDOM html (DomNode.mk "#document" none [] childNodes val sloc lloc)
          none initState))).nodes.head? = _
    rw [hnodes3, hB2, hNs']
    simp [initState, gnode, jsOrElseStr]
  · intro l hl hty heq0
    have h0in : (0 : Nat) ∈ structuralTargets
        (runAnalysis html pJS pCSS (DomNode.mk "#document" none [] childNodes val sloc lloc)) :=
      List.mem_map.mpr ⟨l, List.mem_filter.mpr ⟨hl, by simp [hty]⟩, heq0⟩
    have hrun : Inv (runAnalysis html pJS pCSS
        (DomNode.mk "#document" none [] childNodes val sloc lloc)) :=
      runAnalysis_inv html pJS pCSS (DomNode.mk "#document" none [] childNodes val sloc lloc)
    have hfalse := (hrun.parentChar _ hgmem).mp h0in
    rw [show exemptNode (gnode 0 "#document" "element" (domContent html lloc)) = true from
      by simp [exemptNode, gnode]] at hfalse
    cases hfalse
  · show ((linkStylesToElements (extractScriptsAndStyles pJS pCSS
        (DomNode.mk "#document" none [] childNodes val sloc lloc) none
        (traverseDOM html (DomNode.mk "#document" none [] childNodes val sloc lloc)
          none initState))).links.filter
        (fun l => l.type == "structural" && l.source == 0)).length = countElems childNodes
    rw [hlinks3, hA2l, hA1]
    simp only [List.filter_append, List.length_append]
    have e0 : (initState.links.filter (fun l => l.type == "structural" && l.source == 0)) = [] := by
      simp [initState]
    have e2 : (A2l.filter (fun l => l.type == "structural" && l.source == 0)) = [] := by
      rw [List.filter_eq_nil_iff]
      intro l hl
      simp only [Bool.and_eq_true, beq_iff_eq, not_and]
      intro hty hs0
      rcases hsrc2 l hl hty with ⟨q, hq, _⟩ | hge
      · cases hq
      · omega
    have e3 : (A3.filter (fun l => l.type == "structural" && l.source == 0)) = [] := by
      rw [List.filter_eq_nil_iff]
      intro l hl
      simp only [Bool.and_eq_true, beq_iff_eq, not_and]
      intro hty _
      have h2 := hty3 l hl
      rw [hty] at h2
      exact absurd h2 (by decide)
    rw [e0, e2, e3, hc1]
    simp

set_option maxHeartbeats 1600000 in
theorem claim10_witness :
    (runAnalysis "" pJSnone pCSSnone
        (DomNode.mk "#document" none [] [elemN "div" [] []] none none none)).nodes.head?
      = some (gnode 0 "#document" "element" (domContent "" none))
    ∧ (∀ l ∈ (runAnalysis "" pJSnone pCSSnone
          (DomNode.mk "#document" none [] [elemN "div" [] []] none none none)).links,
        l.type = "structural" → l.target ≠ 0)
    ∧ ((runAnalysis "" pJSnone pCSSnone
          (DomNode.mk "#document" none [] [elemN "div" [] []] none none none)).links.filter
          (fun l => l.type == "structural" && l.source == 0)).length
      = countElems [elemN "div" [] []] :=
  claim10_document_root "" pJSnone pCSSnone [elemN "div" [] []] none none none

end HTMLNodeMapper
